import Mathlib

set_option maxHeartbeats 1000000

/-! # Shallow embedding of the tab-manager extension UI (`ui.js`)

The extension's visual page keeps three selection lists of tab ids
(`blueSelection` = Current, `redSelection` = Source, `yellowSelection` =
Target), a merge-stage marker (`mergeMode`: `null`, `'red'`, `'yellow'`),
a cached window mirror (`windowsData`), a snapshot used for cheap change
detection, an active-window id, and the id of the window hosting the UI
page.  Button handlers drive a host window/tab API
(`chrome.windows.create`, `chrome.tabs.move`, `chrome.windows.update`,
`chrome.windows.get`).

Tabs are modelled by their identifiers; display attributes (title, url,
favicon, active flag) are inert for every behaviour modelled here and are
omitted.  Host calls that can be rejected take an explicit success flag;
a rejected call raises (`Except.error`) carrying the host state at the
failure point, mirroring a thrown promise rejection with no rollback.
The host records every mutating command it was issued in `trace`
(queries such as `chrome.windows.get` / `chrome.tabs.query` are not
commands and are not traced). -/

/-- A browser tab, as far as the modelled logic inspects it. -/
structure CTab where
  id : Nat
deriving DecidableEq

/-- A browser window: host-assigned id plus its ordered tabs. -/
structure CWindow where
  id : Nat
  tabs : List CTab
deriving DecidableEq

/-- A mutating command issued to the host API. -/
inductive HostCmd where
  /-- `chrome.windows.create {tabId: seed}` (seed `none` = undefined). -/
  | create (seed : Option Nat)
  /-- `chrome.tabs.move(tabIds, {windowId: dest, index: -1})`. -/
  | move (tabIds : List Nat) (dest : Nat)
  /-- `chrome.windows.update(wid, {focused: true})`. -/
  | focus (wid : Nat)
deriving DecidableEq

/-- Host-side state: the window universe, a fresh-id source for created
windows, the focused window, and the trace of issued commands. -/
structure Host where
  world : List CWindow
  nextId : Nat
  focused : Option Nat
  trace : List HostCmd
deriving DecidableEq

/-- Look up a window by id (`chrome.windows.get`). -/
def getWindow (ws : List CWindow) (wid : Nat) : Option CWindow :=
  ws.find? (fun w => w.id = wid)

/-- Look up a tab by id anywhere in the universe (first window wins). -/
def findTab : List CWindow → Nat → Option CTab
  | [], _ => none
  | w :: ws, tid =>
    match w.tabs.find? (fun t => t.id = tid) with
    | some t => some t
    | none => findTab ws tid

/-- Remove the tab with the given id from every window (it is about to be
re-homed). -/
def removeTabEverywhere (ws : List CWindow) (tid : Nat) : List CWindow :=
  ws.map (fun w => { w with tabs := w.tabs.filter (fun t => decide (t.id ≠ tid)) })

/-- The window universe after `chrome.tabs.move(ids, dest, index: -1)`:
each listed tab leaves its window and the corresponding tab records are
appended, in the order of `ids`, to the destination window. -/
def moveWorld (ws : List CWindow) (ids : List Nat) (dest : Nat) : List CWindow :=
  (ws.map (fun w => { w with tabs := w.tabs.filter (fun t => decide (t.id ∉ ids)) })).map
    (fun w => if w.id = dest then { w with tabs := w.tabs ++ ids.filterMap (findTab ws) } else w)

/-- `chrome.windows.create({tabId: seed, state: 'normal'})`: creates a
fresh window seeded with the given tab (moved out of its prior window);
with an undefined seed the window is created unseeded.  The created
window gains focus.  Fails when the flag says so or the seed tab does
not exist. -/
def hCreateWindow (h : Host) (seed : Option Nat) (ok : Bool) : Except Host (Nat × Host) :=
  let h0 : Host := { h with trace := h.trace ++ [HostCmd.create seed] }
  if !ok then Except.error h0
  else
    match seed with
    | none =>
        Except.ok (h.nextId,
          { h0 with world := h.world ++ [⟨h.nextId, []⟩], nextId := h.nextId + 1,
                    focused := some h.nextId })
    | some tid =>
        match findTab h.world tid with
        | none => Except.error h0
        | some t =>
            Except.ok (h.nextId,
              { h0 with world := removeTabEverywhere h.world tid ++ [⟨h.nextId, [t]⟩],
                        nextId := h.nextId + 1, focused := some h.nextId })

/-- `chrome.tabs.move(ids, {windowId: dest, index: -1})`: fails when the
flag says so, when some listed tab does not exist, or when the
destination window does not exist. -/
def hMoveTabs (h : Host) (ids : List Nat) (dest : Nat) (ok : Bool) : Except Host Host :=
  let h0 : Host := { h with trace := h.trace ++ [HostCmd.move ids dest] }
  if !ok then Except.error h0
  else if ids.all (fun i => (findTab h.world i).isSome) && (getWindow h.world dest).isSome then
    Except.ok { h0 with world := moveWorld h.world ids dest }
  else Except.error h0

/-- `chrome.windows.update(wid, {focused: true})`. -/
def hFocusWindow (h : Host) (wid : Nat) (ok : Bool) : Except Host Host :=
  let h0 : Host := { h with trace := h.trace ++ [HostCmd.focus wid] }
  if !ok then Except.error h0
  else if (getWindow h.world wid).isSome then Except.ok { h0 with focused := some wid }
  else Except.error h0

/-- The merge-stage marker values `'red'` (source staged) and `'yellow'`
(target staged); the JS `null` is `Option.none`. -/
inductive MergeMode where
  | red
  | yellow
deriving DecidableEq

/-- The module-level mutable state of `ui.js`. -/
structure UIState where
  windowsData : List CWindow
  activeWindowId : Option Nat
  lastSnapshot : Option (List (Nat × List Nat))
  uiWindowId : Option Nat
  blueSelection : List Nat
  redSelection : List Nat
  yellowSelection : List Nat
  mergeMode : Option MergeMode
deriving DecidableEq

/-- Result of running a button/gesture handler: the UI state, the host
state, the `alert` text if one was shown, and whether
`loadWindowsAndTabs()` (a refresh) was triggered. -/
structure ClickResult where
  st : UIState
  host : Host
  alertMsg : Option String
  refreshed : Bool
deriving DecidableEq

/-- JavaScript truthiness of a nullable number: `null`/`undefined` and
`0` are falsy. -/
def jsFalsyN (o : Option Nat) : Bool :=
  match o with
  | none => true
  | some n => n == 0

/-- JavaScript `a || b` on nullable numbers. -/
def jsOrN (a b : Option Nat) : Option Nat :=
  if jsFalsyN a then b else a

/-- `refreshUiWindowId()`: query the host for the tab showing `ui.html`
(`uiLookup` is its window id when the query finds one) and update
`uiWindowId`; on failure or no match keep the last known value. -/
def refreshUiWindowId (st : UIState) (uiLookup : Option Nat) : UIState :=
  match uiLookup with
  | some wid => { st with uiWindowId := some wid }
  | none => st

/-- The lightweight snapshot `JSON.stringify(sorted.map(w => ({id, tabs: ids})))`,
modelled structurally (stringification is injective on this shape). -/
def snapshotOf (ws : List CWindow) : List (Nat × List Nat) :=
  ws.map (fun w => (w.id, w.tabs.map (fun t => t.id)))

/-- Insert a window into an id-sorted list (helper for `sortWins`). -/
def insertWin (w : CWindow) : List CWindow → List CWindow
  | [] => [w]
  | x :: xs => if w.id ≤ x.id then w :: x :: xs else x :: insertWin w xs

/-- `windows.sort((a, b) => a.id - b.id)`: stable sort by ascending id. -/
def sortWins : List CWindow → List CWindow
  | [] => []
  | w :: ws => insertWin w (sortWins ws)

/-- `loadWindowsAndTabs()`: refresh the UI-window id, fetch all windows
(`fetch` is the outcome of `chrome.windows.getAll`), sort by id, compare
snapshots, and only on a change replace the mirror and snapshot; an
empty universe renders the empty state; a missing/falsy active-window id
is (re)assigned to the first window.  A fetch error is caught and leaves
the store untouched.  Render calls mutate only the DOM and are not
modelled. -/
def loadWindowsAndTabs (st0 : UIState) (fetch : Except Unit (List CWindow))
    (uiLookup : Option Nat) : UIState :=
  let st := refreshUiWindowId st0 uiLookup
  match fetch with
  | Except.error _ => st
  | Except.ok windows =>
    let sorted := sortWins windows
    let snapshot := snapshotOf sorted
    if st.lastSnapshot = some snapshot then st
    else
      let st1 := { st with lastSnapshot := some snapshot, windowsData := sorted }
      if sorted = [] then st1
      else if jsFalsyN st1.activeWindowId then
        { st1 with activeWindowId := (sorted.head?).map (fun w => w.id) }
      else st1

/-- The window-level `keydown` listener: Escape clears all three
selections and resets the merge stage; any other key does nothing. -/
def keydownHandler (st : UIState) (key : String) : UIState :=
  if key = "Escape" then
    { st with blueSelection := [], redSelection := [], yellowSelection := [],
              mergeMode := none }
  else st

/-- Ctrl/Cmd-click on a tab card: toggle its membership in the Current
(blue) selection (`toggleTabSelection`). -/
def toggleTabSelection (tabId : Nat) (blue : List Nat) : List Nat :=
  if blue.contains tabId then blue.filter (fun id => decide (id ≠ tabId))
  else blue ++ [tabId]

/-- `selectAllTabsInWindow`: append every tab id of the window onto the
Current selection (pure union, no dedup, never removes). -/
def selectAllTabsInWindow (windowsData : List CWindow) (windowId : Nat)
    (blue : List Nat) : List Nat :=
  match windowsData.find? (fun w => w.id = windowId) with
  | none => blue
  | some w => blue ++ w.tabs.map (fun t => t.id)

/-- The window-header `dblclick` handler: switch the active window and
select all of its tabs. -/
def dblclickWindowHeader (st : UIState) (windowId : Nat) : UIState :=
  { st with activeWindowId := some windowId,
            blueSelection := selectAllTabsInWindow st.windowsData windowId st.blueSelection }

/-- `toggleAllTabsInWindow`: if every tab of the window is already in the
Current selection remove them all, otherwise push (at the end, in window
order) exactly those not yet present. -/
def toggleAllTabsInWindow (windowsData : List CWindow) (windowId : Nat)
    (blue : List Nat) : List Nat :=
  match windowsData.find? (fun w => w.id = windowId) with
  | none => blue
  | some w =>
    let tabIds := w.tabs.map (fun t => t.id)
    if tabIds.all (fun id => blue.contains id) then
      blue.filter (fun id => decide (id ∉ tabIds))
    else
      tabIds.foldl (fun acc id => if acc.contains id then acc else acc ++ [id]) blue

/-- `Array.from(new Set(l))`: duplicates collapsed, first occurrence kept,
insertion order preserved. -/
def jsSetDedupAux (seen : List Nat) : List Nat → List Nat
  | [] => []
  | x :: xs => if seen.contains x then jsSetDedupAux seen xs
               else x :: jsSetDedupAux (x :: seen) xs

/-- `Array.from(new Set(l))`. -/
def jsSetDedup (l : List Nat) : List Nat :=
  jsSetDedupAux [] l

/-- The selection update performed by `endDrag` once the final
intersecting set `selectedIds` is known: Shift/Cmd unions (via a JS
`Set`), plain release replaces, Ctrl-only leaves the drag result unused;
an empty intersecting set leaves the selection alone. -/
def endDragSelection (blue : List Nat) (selectedIds : List Nat)
    (shift meta ctrl : Bool) : List Nat :=
  if selectedIds ≠ [] then
    if shift || meta then jsSetDedup (blue ++ selectedIds)
    else if !ctrl then selectedIds
    else blue
  else blue

/-- The create-then-move sequence shared verbatim by merge stage 3 and
the Split handler: seed a new window from the first id
(`chrome.windows.create({tabId: ids[0]})`, undefined seed when the list
is empty) and, when a remainder exists, move it there appended at the
end. -/
def createAndMoveAll (h : Host) (ids : List Nat) (createOk moveOk : Bool) :
    Except Host (Nat × Host) := do
  let r ← hCreateWindow h ids.head? createOk
  if ids.drop 1 = [] then pure r
  else do
    let h2 ← hMoveTabs r.2 (ids.drop 1) r.1 moveOk
    pure (r.1, h2)

/-- `mergeBtn.onclick`: the 3-stage merge protocol.  The opening guard
rejects an empty Current unless the target stage is already reached;
stage 1 stages Current as Source, stage 2 stages Current as Target,
stage 3 combines `[...red, ...yellow]`, seeds a new window with the
first id, moves the rest there, and clears the staged state whether the
host calls succeed or fail. -/
def mergeBtnClick (st0 : UIState) (h : Host) (uiLookup : Option Nat)
    (createOk moveOk : Bool) : ClickResult :=
  let st := refreshUiWindowId st0 uiLookup
  if st.blueSelection = [] ∧ st.mergeMode ≠ some MergeMode.yellow then
    ⟨st, h, some "No tabs selected", false⟩
  else
    match st.mergeMode with
    | none =>
        ⟨{ st with redSelection := st.blueSelection, blueSelection := [],
                   mergeMode := some MergeMode.red }, h, none, false⟩
    | some MergeMode.red =>
        let st1 := { st with yellowSelection := st.blueSelection, blueSelection := [],
                             mergeMode := some MergeMode.yellow }
        if st1.yellowSelection = [] then
          ⟨{ st1 with mergeMode := some MergeMode.red }, h,
           some "No target tabs selected", false⟩
        else ⟨st1, h, none, false⟩
    | some MergeMode.yellow =>
        match createAndMoveAll h (st.redSelection ++ st.yellowSelection) createOk moveOk with
        | Except.ok r =>
            ⟨{ st with mergeMode := none, redSelection := [], yellowSelection := [] },
             r.2, none, true⟩
        | Except.error h1 =>
            ⟨{ st with mergeMode := none, redSelection := [], yellowSelection := [] },
             h1, some "Merge failed", false⟩

/-- `splitBtn.onclick`: split the Current selection into a new window
seeded by its first id; on success clear Current and refresh, on host
failure alert and leave Current untouched. -/
def splitBtnClick (st0 : UIState) (h : Host) (uiLookup : Option Nat)
    (createOk moveOk : Bool) : ClickResult :=
  let st := refreshUiWindowId st0 uiLookup
  if st.blueSelection = [] then ⟨st, h, some "No tabs selected", false⟩
  else
    match createAndMoveAll h st.blueSelection createOk moveOk with
    | Except.ok r => ⟨{ st with blueSelection := [] }, r.2, none, true⟩
    | Except.error h1 => ⟨st, h1, some "Split failed", false⟩

/-- `mergeFromWindow(target, source)`: fetch the source window, collect
its (truthy) tab ids, and unless there are none move them to the end of
the target and focus the target. -/
def mergeFromWindow (h : Host) (targetWindowId sourceWindowId : Nat)
    (moveOk focusOk : Bool) : Except Host Host :=
  if sourceWindowId = targetWindowId then Except.ok h
  else
    match getWindow h.world sourceWindowId with
    | none => Except.error h
    | some src =>
      let tabIds := (src.tabs.map (fun t => t.id)).filter (fun i => decide (i ≠ 0))
      if tabIds = [] then Except.ok h
      else do
        let h1 ← hMoveTabs h tabIds targetWindowId moveOk
        hFocusWindow h1 targetWindowId focusOk

/-- The sequential loop of `mergeAllBtn.onclick` over the cached window
mirror; `ok` gives the (move, focus) success flags per source window id;
the first failure aborts the remainder. -/
def mergeAllLoop (tgt : Nat) (wins : List CWindow) (ok : Nat → Bool × Bool)
    (h : Host) : Except Host Host :=
  match wins with
  | [] => Except.ok h
  | w :: rest =>
    if w.id = tgt then mergeAllLoop tgt rest ok h
    else
      match mergeFromWindow h tgt w.id (ok w.id).1 (ok w.id).2 with
      | Except.ok h1 => mergeAllLoop tgt rest ok h1
      | Except.error h1 => Except.error h1

/-- `mergeAllBtn.onclick`: pick the target window as
`uiWindowId || activeWindowId || windowsData[0]?.id` (JS falsy-based
fallbacks), then merge every other window of the mirror into it
sequentially; success triggers a refresh, a failure alerts. -/
def mergeAllBtnClick (st0 : UIState) (h : Host) (uiLookup : Option Nat)
    (ok : Nat → Bool × Bool) : ClickResult :=
  let st := refreshUiWindowId st0 uiLookup
  let topt := jsOrN st.uiWindowId
      (jsOrN st.activeWindowId ((st.windowsData.head?).map (fun w => w.id)))
  if jsFalsyN topt then ⟨st, h, some "No target window to merge into", false⟩
  else
    match topt with
    | none => ⟨st, h, some "No target window to merge into", false⟩
    | some tgt =>
      match mergeAllLoop tgt st.windowsData ok h with
      | Except.ok h1 => ⟨st, h1, none, true⟩
      | Except.error h1 => ⟨st, h1, some "Merge All failed", false⟩

/-- The mirror windows the merge-all loop does not skip by identity. -/
def nonTargetWins (tgt : Nat) (wins : List CWindow) : List CWindow :=
  wins.filter (fun w => decide (w.id ≠ tgt))

/-- The mirror windows that actually cause host commands during
merge-all: not the target and not empty. -/
def mergedSources (tgt : Nat) (wins : List CWindow) : List CWindow :=
  (nonTargetWins tgt wins).filter (fun w => decide (w.tabs ≠ []))

/-- The command trace a fully successful merge-all run issues: one bulk
move plus one focus per non-empty non-target mirror window, in mirror
order. -/
def mergeAllTrace (tgt : Nat) (wins : List CWindow) : List HostCmd :=
  (mergedSources tgt wins).flatMap
    (fun w => [HostCmd.move (w.tabs.map (fun t => t.id)) tgt, HostCmd.focus tgt])

/-- Coherence between the host world and the part of the mirror the
merge-all loop still has to process: the target window exists and holds
`T`; every pending non-target mirror window is live in the world with
exactly its mirrored tabs, each of which is found by global tab lookup
and has a truthy id; no tab id occurs twice among the target and the
pending windows; pending window ids are distinct. -/
def LoopInv (h : Host) (tgt : Nat) (T : List CTab) (wins : List CWindow) : Prop :=
  getWindow h.world tgt = some ⟨tgt, T⟩ ∧
  (∀ w ∈ wins, w.id ≠ tgt →
    getWindow h.world w.id = some w ∧
    ∀ t ∈ w.tabs, findTab h.world t.id = some t ∧ t.id ≠ 0) ∧
  (T.map (fun t => t.id) ++
    (nonTargetWins tgt wins).flatMap (fun w => w.tabs.map (fun t => t.id))).Nodup ∧
  (wins.map (fun w => w.id)).Nodup

/-! ## Basic lemmas about the embedded definitions -/

@[simp] theorem refreshUiWindowId_windowsData (st : UIState) (u : Option Nat) :
    (refreshUiWindowId st u).windowsData = st.windowsData := by
  cases u <;> rfl

@[simp] theorem refreshUiWindowId_blue (st : UIState) (u : Option Nat) :
    (refreshUiWindowId st u).blueSelection = st.blueSelection := by
  cases u <;> rfl

@[simp] theorem refreshUiWindowId_red (st : UIState) (u : Option Nat) :
    (refreshUiWindowId st u).redSelection = st.redSelection := by
  cases u <;> rfl

@[simp] theorem refreshUiWindowId_yellow (st : UIState) (u : Option Nat) :
    (refreshUiWindowId st u).yellowSelection = st.yellowSelection := by
  cases u <;> rfl

@[simp] theorem refreshUiWindowId_mergeMode (st : UIState) (u : Option Nat) :
    (refreshUiWindowId st u).mergeMode = st.mergeMode := by
  cases u <;> rfl

@[simp] theorem refreshUiWindowId_lastSnapshot (st : UIState) (u : Option Nat) :
    (refreshUiWindowId st u).lastSnapshot = st.lastSnapshot := by
  cases u <;> rfl

@[simp] theorem refreshUiWindowId_activeWindowId (st : UIState) (u : Option Nat) :
    (refreshUiWindowId st u).activeWindowId = st.activeWindowId := by
  cases u <;> rfl

/-- `findTab` on a cons, in `Option.or` form. -/
theorem findTab_cons (w : CWindow) (ws : List CWindow) (i : Nat) :
    findTab (w :: ws) i = (w.tabs.find? (fun t => t.id = i)).or (findTab ws i) := by
  rw [findTab]
  cases w.tabs.find? (fun t => t.id = i) <;> rfl

/-- A found tab carries the id it was looked up by. -/
theorem findTab_id : ∀ {ws : List CWindow} {i : Nat} {t : CTab},
    findTab ws i = some t → t.id = i := by
  intro ws i t h
  induction ws with
  | nil => simp [findTab] at h
  | cons w ws ih =>
    rw [findTab_cons] at h
    cases hf : w.tabs.find? (fun t => t.id = i) with
    | some t' =>
      have hp := List.find?_some hf
      rw [hf] at h
      simp only [Option.or_some] at h
      cases h
      exact of_decide_eq_true hp
    | none =>
      rw [hf] at h
      simp only [Option.none_or] at h
      exact ih h

/-- `findTab` scans windows front to back. -/
theorem findTab_append (ws₁ ws₂ : List CWindow) (i : Nat) :
    findTab (ws₁ ++ ws₂) i = (findTab ws₁ i).or (findTab ws₂ i) := by
  induction ws₁ with
  | nil => simp [findTab]
  | cons w ws ih =>
    rw [List.cons_append, findTab_cons, findTab_cons, ih, Option.or_assoc]

/-- Window lookup commutes with an id-preserving transformation of every
window. -/
theorem getWindow_map (f : CWindow → CWindow) (hf : ∀ w, (f w).id = w.id)
    (ws : List CWindow) (wid : Nat) :
    getWindow (ws.map f) wid = (getWindow ws wid).map f := by
  unfold getWindow
  rw [List.find?_map]
  have hp : ((fun w => decide (w.id = wid)) ∘ f) = (fun w : CWindow => decide (w.id = wid)) := by
    funext w
    simp [Function.comp, hf]
  rw [hp]

/-- `find?` ignores a filter that can never discard a hit. -/
theorem find?_filter_of_imp {α : Type} (l : List α) (p q : α → Bool)
    (h : ∀ a, p a = true → q a = true) :
    (l.filter q).find? p = l.find? p := by
  induction l with
  | nil => rfl
  | cons a l ih =>
    by_cases hp : p a = true
    · have hq := h a hp
      simp [List.filter_cons, hq, hp]
    · by_cases hq : q a = true <;>
        simp [List.filter_cons, hq, List.find?_cons_of_neg, hp, ih]

/-- A tab found via `filterMap (findTab ws)` over an id list has its id in
that list. -/
theorem id_mem_of_mem_filterMap_findTab {ws : List CWindow} {ids : List Nat}
    {t : CTab} (h : t ∈ ids.filterMap (findTab ws)) : t.id ∈ ids := by
  obtain ⟨j, hj, hfind⟩ := List.mem_filterMap.mp h
  rw [findTab_id hfind]
  exact hj

/-- `moveWorld` written as a single id-preserving map. -/
theorem moveWorld_eq_map (ws : List CWindow) (ids : List Nat) (dest : Nat) :
    moveWorld ws ids dest = ws.map (fun w =>
      if w.id = dest then
        { w with tabs := w.tabs.filter (fun t => decide (t.id ∉ ids)) ++ ids.filterMap (findTab ws) }
      else { w with tabs := w.tabs.filter (fun t => decide (t.id ∉ ids)) }) := by
  unfold moveWorld
  rw [List.map_map]
  rfl

/-- Lookup after a bulk move: the destination gains the moved tabs at its
end, every window loses the listed ids. -/
theorem getWindow_moveWorld (ws : List CWindow) (ids : List Nat) (dest wid : Nat) :
    getWindow (moveWorld ws ids dest) wid = (getWindow ws wid).map (fun w =>
      if w.id = dest then
        { w with tabs := w.tabs.filter (fun t => decide (t.id ∉ ids)) ++ ids.filterMap (findTab ws) }
      else { w with tabs := w.tabs.filter (fun t => decide (t.id ∉ ids)) }) := by
  rw [moveWorld_eq_map]
  apply getWindow_map
  intro w
  by_cases h : w.id = dest <;> simp [h]

/-- Searching a tab list that lost the ids in `ids` and gained only tabs
whose id is in `ids` finds the same answer for any id outside `ids`. -/
theorem find?_tabs_move (tabs : List CTab) (ids : List Nat) (extra : List CTab)
    (i : Nat) (hi : i ∉ ids) (hextra : ∀ t ∈ extra, t.id ∈ ids) :
    (tabs.filter (fun t => decide (t.id ∉ ids)) ++ extra).find? (fun t => t.id = i) =
      tabs.find? (fun t => t.id = i) := by
  rw [List.find?_append]
  have hnone : extra.find? (fun t => decide (t.id = i)) = none := by
    apply List.find?_eq_none.mpr
    intro t ht
    simp only [decide_eq_true_eq]
    intro hti
    exact hi (hti ▸ hextra t ht)
  rw [find?_filter_of_imp, hnone, Option.or_none]
  intro t ht
  simp only [decide_eq_true_eq] at ht ⊢
  intro htm
  exact hi (ht ▸ htm)

/-- Tab lookup for an unmoved id is unchanged by applying the bulk-move
window transformation, for any batch `extra` of tabs whose ids were all
moved. -/
theorem findTab_mapMove (ids : List Nat) (dest : Nat) (extra : List CTab)
    (i : Nat) (hi : i ∉ ids) (hextra : ∀ t ∈ extra, t.id ∈ ids) :
    ∀ ws : List CWindow,
      findTab (ws.map (fun w =>
        if w.id = dest then
          { w with tabs := w.tabs.filter (fun t => decide (t.id ∉ ids)) ++ extra }
        else { w with tabs := w.tabs.filter (fun t => decide (t.id ∉ ids)) })) i =
      findTab ws i := by
  intro ws
  induction ws with
  | nil => rfl
  | cons w ws ih =>
    rw [List.map_cons, findTab_cons, findTab_cons, ih]
    congr 1
    by_cases hw : w.id = dest
    · simp only [if_pos hw]
      exact find?_tabs_move w.tabs ids extra i hi hextra
    · simp only [if_neg hw]
      apply find?_filter_of_imp
      intro t ht
      simp only [decide_eq_true_eq] at ht ⊢
      intro htm
      exact hi (ht ▸ htm)

/-- Tab lookup for an unmoved id is unchanged by a bulk move. -/
theorem findTab_moveWorld (ws : List CWindow) (ids : List Nat) (dest : Nat)
    (i : Nat) (hi : i ∉ ids) :
    findTab (moveWorld ws ids dest) i = findTab ws i := by
  rw [moveWorld_eq_map]
  exact findTab_mapMove ids dest (ids.filterMap (findTab ws)) i hi
    (fun t ht => id_mem_of_mem_filterMap_findTab ht) ws

/-- Collecting the tabs of an id list that maps each tab of `tabs` to
itself reproduces `tabs`. -/
theorem filterMap_findTab_of_present (ws : List CWindow) (tabs : List CTab)
    (h : ∀ t ∈ tabs, findTab ws t.id = some t) :
    (tabs.map (fun t => t.id)).filterMap (findTab ws) = tabs := by
  induction tabs with
  | nil => rfl
  | cons t ts ih =>
    rw [List.map_cons, List.filterMap_cons]
    rw [h t (by simp)]
    rw [ih (fun t' ht' => h t' (List.mem_cons_of_mem _ ht'))]

/-- The ids of the tabs collected for an id list of present tabs are that
id list. -/
theorem map_id_filterMap_findTab (ws : List CWindow) (ids : List Nat)
    (h : ∀ i ∈ ids, (findTab ws i).isSome) :
    (ids.filterMap (findTab ws)).map (fun t => t.id) = ids := by
  induction ids with
  | nil => rfl
  | cons i is ih =>
    obtain ⟨t, ht⟩ := Option.isSome_iff_exists.mp (h i (by simp))
    rw [List.filterMap_cons, ht, List.map_cons, findTab_id ht]
    rw [ih (fun j hj => h j (List.mem_cons_of_mem _ hj))]

@[simp] theorem Except_bind_ok {ε α β : Type} (a : α) (f : α → Except ε β) :
    (Except.ok a >>= f : Except ε β) = f a := rfl

@[simp] theorem Except_bind_error {ε α β : Type} (e : ε) (f : α → Except ε β) :
    (Except.error e >>= f : Except ε β) = Except.error e := rfl

/-- Tab lookup for any other id survives removing one tab everywhere. -/
theorem findTab_removeTabEverywhere (ws : List CWindow) (c i : Nat) (hic : i ≠ c) :
    findTab (removeTabEverywhere ws c) i = findTab ws i := by
  unfold removeTabEverywhere
  induction ws with
  | nil => rfl
  | cons w ws ih =>
    rw [List.map_cons, findTab_cons, findTab_cons, ih]
    congr 1
    apply find?_filter_of_imp
    intro t ht
    simp only [decide_eq_true_eq] at ht ⊢
    rw [ht]
    exact hic

/-- Window lookup survives removing one tab everywhere, modulo the tab
filter. -/
theorem getWindow_removeTabEverywhere (ws : List CWindow) (c wid : Nat) :
    getWindow (removeTabEverywhere ws c) wid =
      (getWindow ws wid).map
        (fun w => { w with tabs := w.tabs.filter (fun t => decide (t.id ≠ c)) }) := by
  unfold removeTabEverywhere
  apply getWindow_map
  intro w
  rfl

/-- Looking up the id of a freshly appended window. -/
theorem getWindow_append_single (A : List CWindow) (w : CWindow) (wid : Nat)
    (h : getWindow A wid = none) (hw : w.id = wid) :
    getWindow (A ++ [w]) wid = some w := by
  unfold getWindow at *
  rw [List.find?_append, h, Option.none_or]
  have : (fun x : CWindow => decide (x.id = wid)) w = true := by
    simp [hw]
  simp [List.find?_cons_of_pos, this]

/-- `findTab` in a one-window universe whose only tab has a different id. -/
theorem findTab_single_ne (nid : Nat) (t0 : CTab) (i : Nat) (hne : t0.id ≠ i) :
    findTab [⟨nid, [t0]⟩] i = none := by
  rw [findTab_cons]
  have : ([t0].find? (fun t => t.id = i)) = none := by
    apply List.find?_eq_none.mpr
    intro t ht
    simp only [List.mem_singleton] at ht
    subst ht
    simp [hne]
  rw [this]
  rfl

/-- Evaluating a successful seeded `chrome.windows.create`. -/
theorem hCreateWindow_ok_some (h : Host) (tid : Nat) (t : CTab)
    (ht : findTab h.world tid = some t) :
    hCreateWindow h (some tid) true = Except.ok (h.nextId,
      { world := removeTabEverywhere h.world tid ++ [⟨h.nextId, [t]⟩],
        nextId := h.nextId + 1, focused := some h.nextId,
        trace := h.trace ++ [HostCmd.create (some tid)] }) := by
  simp [hCreateWindow, ht]

/-- Evaluating a successful `chrome.tabs.move`. -/
theorem hMoveTabs_ok (h : Host) (ids : List Nat) (dest : Nat)
    (hguard : (ids.all (fun i => (findTab h.world i).isSome) &&
      (getWindow h.world dest).isSome) = true) :
    hMoveTabs h ids dest true = Except.ok
      { world := moveWorld h.world ids dest, nextId := h.nextId,
        focused := h.focused, trace := h.trace ++ [HostCmd.move ids dest] } := by
  unfold hMoveTabs
  rw [hguard]
  rfl

/-- Evaluating a rejected `chrome.tabs.move`: only the trace records the
issued command; the world is untouched. -/
theorem hMoveTabs_fail (h : Host) (ids : List Nat) (dest : Nat) :
    hMoveTabs h ids dest false = Except.error
      { h with trace := h.trace ++ [HostCmd.move ids dest] } := by
  rfl

/-- Evaluating a successful `chrome.windows.update({focused: true})`. -/
theorem hFocusWindow_ok (h : Host) (wid : Nat)
    (hw : (getWindow h.world wid).isSome = true) :
    hFocusWindow h wid true = Except.ok
      { h with focused := some wid, trace := h.trace ++ [HostCmd.focus wid] } := by
  unfold hFocusWindow
  rw [hw]
  rfl

/-- Specification of the shared seed-then-move sequence on the success
path: the fresh window ends up holding exactly the tabs of `ids` in that
order; the trace records a create of the head and (when a remainder
exists) one bulk move of the tail. -/
theorem createAndMoveAll_ok (h : Host) (ids : List Nat)
    (hne : ids ≠ []) (hnodup : ids.Nodup)
    (hpresent : ∀ i ∈ ids, (findTab h.world i).isSome)
    (hfresh : getWindow h.world h.nextId = none) :
    ∃ h1, createAndMoveAll h ids true true = Except.ok (h.nextId, h1) ∧
      getWindow h1.world h.nextId = some ⟨h.nextId, ids.filterMap (findTab h.world)⟩ ∧
      h1.trace = h.trace ++ HostCmd.create ids.head? ::
        (if ids.drop 1 = [] then [] else [HostCmd.move (ids.drop 1) h.nextId]) ∧
      h1.nextId = h.nextId + 1 := by
  obtain ⟨c, rest, rfl⟩ : ∃ c rest, ids = c :: rest := by
    cases ids with
    | nil => exact absurd rfl hne
    | cons c rest => exact ⟨c, rest, rfl⟩
  obtain ⟨t0, ht0⟩ := Option.isSome_iff_exists.mp (hpresent c (by simp))
  have ht0id : t0.id = c := findTab_id ht0
  have hcnotrest : c ∉ rest := (List.nodup_cons.mp hnodup).1
  -- the world right after `chrome.windows.create`
  set W1 : List CWindow :=
    removeTabEverywhere h.world c ++ [⟨h.nextId, [t0]⟩] with hW1
  have hcreate := hCreateWindow_ok_some h c t0 ht0
  have hfreshW1 : getWindow W1 h.nextId = some ⟨h.nextId, [t0]⟩ := by
    apply getWindow_append_single
    · rw [getWindow_removeTabEverywhere, hfresh]
      rfl
    · rfl
  have hfindW1 : ∀ i ∈ rest, findTab W1 i = findTab h.world i := by
    intro i hi
    have hic : i ≠ c := fun hh => hcnotrest (hh ▸ hi)
    rw [hW1, findTab_append, findTab_removeTabEverywhere h.world c i hic,
      findTab_single_ne h.nextId t0 i (by rw [ht0id]; exact fun hh => hic hh.symm),
      Option.or_none]
  cases rest with
  | nil =>
    refine ⟨{ world := W1, nextId := h.nextId + 1, focused := some h.nextId,
              trace := h.trace ++ [HostCmd.create (some c)] }, ?_, ?_, ?_, rfl⟩
    · unfold createAndMoveAll
      rw [show (([c] : List Nat).head?) = some c from rfl, hcreate]
      rfl
    · simpa [ht0] using hfreshW1
    · simp
  | cons r rs =>
    have hguard : ((r :: rs).all (fun i => (findTab W1 i).isSome) &&
        (getWindow W1 h.nextId).isSome) = true := by
      rw [Bool.and_eq_true]
      constructor
      · rw [List.all_eq_true]
        intro i hi
        rw [hfindW1 i hi]
        exact hpresent i (List.mem_cons_of_mem _ hi)
      · rw [hfreshW1]
        rfl
    have hmove := hMoveTabs_ok
      { world := W1, nextId := h.nextId + 1, focused := some h.nextId,
        trace := h.trace ++ [HostCmd.create (some c)] } (r :: rs) h.nextId hguard
    refine ⟨{ world := moveWorld W1 (r :: rs) h.nextId, nextId := h.nextId + 1,
              focused := some h.nextId,
              trace := (h.trace ++ [HostCmd.create (some c)]) ++
                [HostCmd.move (r :: rs) h.nextId] }, ?_, ?_, ?_, rfl⟩
    · unfold createAndMoveAll
      rw [show ((c :: r :: rs : List Nat).head?) = some c from rfl, hcreate,
        Except_bind_ok]
      show (if (r :: rs : List Nat) = [] then _ else _) = _
      rw [if_neg (by simp)]
      simp only [List.drop_succ_cons, List.drop_zero]
      rw [hmove]
      rfl
    · show getWindow (moveWorld W1 (r :: rs) h.nextId) h.nextId = _
      rw [getWindow_moveWorld, hfreshW1]
      simp only [Option.map_some']
      congr 1
      have hfilter : ([t0].filter (fun t => decide (t.id ∉ r :: rs))) = [t0] := by
        rw [List.filter_eq_self]
        intro t ht
        simp only [List.mem_singleton] at ht
        subst ht
        simpa [ht0id] using hcnotrest
      have hcongr : (r :: rs : List Nat).filterMap (findTab W1) =
          (r :: rs : List Nat).filterMap (findTab h.world) :=
        List.filterMap_congr (fun i hi => hfindW1 i hi)
      rw [hfilter, hcongr]
      simp [List.filterMap_cons, ht0]
    · simp

/-! ## Claim theorems -/

/-- C5: Pressing Escape, in every state (any merge stage, any contents of
the three selections), clears Current, Source, and Target simultaneously
and resets the merge stage to idle. -/
theorem escape_clears_everything (st : UIState) :
    (keydownHandler st "Escape").blueSelection = [] ∧
    (keydownHandler st "Escape").redSelection = [] ∧
    (keydownHandler st "Escape").yellowSelection = [] ∧
    (keydownHandler st "Escape").mergeMode = none := by
  simp [keydownHandler]

/-- C9: for every state, fetch outcome and UI-window lookup, a refresh
leaves Current, Source, Target and the merge-stage marker unchanged; when
the fetch fails, or returns a universe whose snapshot matches the cached
one, the cached snapshot and the window mirror are also left untouched. -/
theorem loadWindowsAndTabs_blue (st : UIState) (fetch : Except Unit (List CWindow))
    (uiLookup : Option Nat) :
    (loadWindowsAndTabs st fetch uiLookup).blueSelection = st.blueSelection := by
  cases fetch with
  | error e => simp [loadWindowsAndTabs]
  | ok ws =>
    simp only [loadWindowsAndTabs]
    split
    · simp
    · split
      · simp
      · split <;> simp

theorem loadWindowsAndTabs_red (st : UIState) (fetch : Except Unit (List CWindow))
    (uiLookup : Option Nat) :
    (loadWindowsAndTabs st fetch uiLookup).redSelection = st.redSelection := by
  cases fetch with
  | error e => simp [loadWindowsAndTabs]
  | ok ws =>
    simp only [loadWindowsAndTabs]
    split
    · simp
    · split
      · simp
      · split <;> simp

theorem loadWindowsAndTabs_yellow (st : UIState) (fetch : Except Unit (List CWindow))
    (uiLookup : Option Nat) :
    (loadWindowsAndTabs st fetch uiLookup).yellowSelection = st.yellowSelection := by
  cases fetch with
  | error e => simp [loadWindowsAndTabs]
  | ok ws =>
    simp only [loadWindowsAndTabs]
    split
    · simp
    · split
      · simp
      · split <;> simp

theorem loadWindowsAndTabs_mergeMode (st : UIState) (fetch : Except Unit (List CWindow))
    (uiLookup : Option Nat) :
    (loadWindowsAndTabs st fetch uiLookup).mergeMode = st.mergeMode := by
  cases fetch with
  | error e => simp [loadWindowsAndTabs]
  | ok ws =>
    simp only [loadWindowsAndTabs]
    split
    · simp
    · split
      · simp
      · split <;> simp

theorem refresh_preserves_selections (st : UIState) (fetch : Except Unit (List CWindow))
    (uiLookup : Option Nat) :
    (loadWindowsAndTabs st fetch uiLookup).blueSelection = st.blueSelection ∧
    (loadWindowsAndTabs st fetch uiLookup).redSelection = st.redSelection ∧
    (loadWindowsAndTabs st fetch uiLookup).yellowSelection = st.yellowSelection ∧
    (loadWindowsAndTabs st fetch uiLookup).mergeMode = st.mergeMode ∧
    (∀ e, fetch = Except.error e →
      (loadWindowsAndTabs st fetch uiLookup).windowsData = st.windowsData ∧
      (loadWindowsAndTabs st fetch uiLookup).lastSnapshot = st.lastSnapshot) ∧
    (∀ ws, fetch = Except.ok ws → st.lastSnapshot = some (snapshotOf (sortWins ws)) →
      (loadWindowsAndTabs st fetch uiLookup).windowsData = st.windowsData ∧
      (loadWindowsAndTabs st fetch uiLookup).lastSnapshot = st.lastSnapshot) := by
  refine ⟨loadWindowsAndTabs_blue st fetch uiLookup, loadWindowsAndTabs_red st fetch uiLookup,
    loadWindowsAndTabs_yellow st fetch uiLookup, loadWindowsAndTabs_mergeMode st fetch uiLookup,
    ?_, ?_⟩
  · intro e he
    subst he
    constructor <;> simp [loadWindowsAndTabs]
  · intro ws hws hsnap
    subst hws
    constructor <;> simp [loadWindowsAndTabs, hsnap]

/-- Witness for C9 at a concrete state and a failing fetch. -/
theorem refresh_preserves_selections_witness :
    (loadWindowsAndTabs ⟨[⟨1, [⟨1⟩]⟩], some 1, some [(1, [1])], none, [3], [4], [5],
        some MergeMode.red⟩ (Except.error ()) (some 2)).blueSelection = [3] ∧
    (loadWindowsAndTabs ⟨[⟨1, [⟨1⟩]⟩], some 1, some [(1, [1])], none, [3], [4], [5],
        some MergeMode.red⟩ (Except.error ()) (some 2)).windowsData = [⟨1, [⟨1⟩]⟩] := by
  have hmain := refresh_preserves_selections
    ⟨[⟨1, [⟨1⟩]⟩], some 1, some [(1, [1])], none, [3], [4], [5], some MergeMode.red⟩
    (Except.error ()) (some 2)
  exact ⟨hmain.1, (hmain.2.2.2.2.1 () rfl).1⟩

/-- C2 counterexample: with the stage source-staged and Current empty,
clicking Merge reports the generic "No tabs selected", not the claimed
"no target tabs selected" notice (that branch is unreachable: the opening
guard returns first). -/
theorem merge_stage2_empty_message_cex :
    (mergeBtnClick ⟨[], none, none, none, [], [5], [], some MergeMode.red⟩
        ⟨[], 0, none, []⟩ none true true).alertMsg = some "No tabs selected" ∧
    (mergeBtnClick ⟨[], none, none, none, [], [5], [], some MergeMode.red⟩
        ⟨[], 0, none, []⟩ none true true).alertMsg ≠ some "No target tabs selected" := by
  decide

/-- C2 (amended): when the merge stage is source-staged and the Merge
action is invoked with an empty Current selection, the handler reports
"No tabs selected" (the generic guard message), issues no host command,
and leaves the stage marker at source-staged with Source preserved and
Target unchanged. -/
theorem merge_stage2_empty_recoverable (st0 : UIState) (h : Host)
    (uiLookup : Option Nat) (cOk mOk : Bool)
    (hmode : st0.mergeMode = some MergeMode.red)
    (hblue : st0.blueSelection = []) :
    mergeBtnClick st0 h uiLookup cOk mOk =
      ⟨refreshUiWindowId st0 uiLookup, h, some "No tabs selected", false⟩ ∧
    (refreshUiWindowId st0 uiLookup).mergeMode = some MergeMode.red ∧
    (refreshUiWindowId st0 uiLookup).redSelection = st0.redSelection ∧
    (refreshUiWindowId st0 uiLookup).yellowSelection = st0.yellowSelection := by
  refine ⟨?_, by simp [hmode], by simp, by simp⟩
  unfold mergeBtnClick
  rw [if_pos]
  constructor
  · simp [hblue]
  · simp [hmode]

/-- Witness for the amended C2 at a concrete state. -/
theorem merge_stage2_empty_recoverable_witness :
    mergeBtnClick ⟨[], none, none, none, [], [9], [], some MergeMode.red⟩
        ⟨[], 3, none, []⟩ none true true =
      ⟨⟨[], none, none, none, [], [9], [], some MergeMode.red⟩, ⟨[], 3, none, []⟩,
        some "No tabs selected", false⟩ :=
  (merge_stage2_empty_recoverable ⟨[], none, none, none, [], [9], [], some MergeMode.red⟩
    ⟨[], 3, none, []⟩ none true true rfl rfl).1

/-- C6 counterexample: a successful stage-3 merge (no failure notice, a
refresh triggered) leaves a non-empty Current selection untouched instead
of clearing all three selections. -/
theorem merge_success_keeps_current_cex :
    (mergeBtnClick ⟨[], none, none, none, [7], [1], [4], some MergeMode.yellow⟩
        ⟨[⟨1, [⟨1⟩]⟩, ⟨2, [⟨4⟩]⟩], 50, none, []⟩ none true true).alertMsg = none ∧
    (mergeBtnClick ⟨[], none, none, none, [7], [1], [4], some MergeMode.yellow⟩
        ⟨[⟨1, [⟨1⟩]⟩, ⟨2, [⟨4⟩]⟩], 50, none, []⟩ none true true).refreshed = true ∧
    (mergeBtnClick ⟨[], none, none, none, [7], [1], [4], some MergeMode.yellow⟩
        ⟨[⟨1, [⟨1⟩]⟩, ⟨2, [⟨4⟩]⟩], 50, none, []⟩ none true true).st.blueSelection = [7] ∧
    ([7] : List Nat) ≠ [] := by
  decide

/-- C6 (amended): when stage 3 of the staged merge completes
(successfully or not), Source and Target are cleared and the stage
resets to idle, while Current is left unchanged — including tabs
selected after the target was staged. -/
theorem merge_stage3_clears_staged_only (st0 : UIState) (h : Host)
    (uiLookup : Option Nat) (cOk mOk : Bool)
    (hmode : st0.mergeMode = some MergeMode.yellow) :
    (mergeBtnClick st0 h uiLookup cOk mOk).st.redSelection = [] ∧
    (mergeBtnClick st0 h uiLookup cOk mOk).st.yellowSelection = [] ∧
    (mergeBtnClick st0 h uiLookup cOk mOk).st.mergeMode = none ∧
    (mergeBtnClick st0 h uiLookup cOk mOk).st.blueSelection = st0.blueSelection := by
  unfold mergeBtnClick
  rw [if_neg (by simp [hmode])]
  rw [show (refreshUiWindowId st0 uiLookup).mergeMode = some MergeMode.yellow from
    by simp [hmode]]
  cases createAndMoveAll h ((refreshUiWindowId st0 uiLookup).redSelection ++
      (refreshUiWindowId st0 uiLookup).yellowSelection) cOk mOk <;> simp

/-- Witness for the amended C6 at a concrete state. -/
theorem merge_stage3_clears_staged_only_witness :
    (mergeBtnClick ⟨[], none, none, none, [8], [1], [4], some MergeMode.yellow⟩
        ⟨[⟨1, [⟨1⟩]⟩, ⟨2, [⟨4⟩]⟩], 50, none, []⟩ none true true).st.redSelection = [] ∧
    (mergeBtnClick ⟨[], none, none, none, [8], [1], [4], some MergeMode.yellow⟩
        ⟨[⟨1, [⟨1⟩]⟩, ⟨2, [⟨4⟩]⟩], 50, none, []⟩ none true true).st.yellowSelection = [] ∧
    (mergeBtnClick ⟨[], none, none, none, [8], [1], [4], some MergeMode.yellow⟩
        ⟨[⟨1, [⟨1⟩]⟩, ⟨2, [⟨4⟩]⟩], 50, none, []⟩ none true true).st.mergeMode = none ∧
    (mergeBtnClick ⟨[], none, none, none, [8], [1], [4], some MergeMode.yellow⟩
        ⟨[⟨1, [⟨1⟩]⟩, ⟨2, [⟨4⟩]⟩], 50, none, []⟩ none true true).st.blueSelection = [8] :=
  merge_stage3_clears_staged_only ⟨[], none, none, none, [8], [1], [4], some MergeMode.yellow⟩
    ⟨[⟨1, [⟨1⟩]⟩, ⟨2, [⟨4⟩]⟩], 50, none, []⟩ none true true rfl

/-- C1: when the merge stage is target-staged, invoking Merge builds the
combination `[...Source, ...Target]`; its first id seeds a newly created
window via `chrome.windows.create`, every remaining id is moved into that
window appended at the end in the combination order (the new window ends
up holding exactly the tabs with those ids, in that order); on success
Source and Target are cleared, the stage resets to idle, and a refresh is
triggered. -/
theorem merge_stage3_executes (st0 : UIState) (h : Host) (uiLookup : Option Nat)
    (hmode : st0.mergeMode = some MergeMode.yellow)
    (hne : st0.redSelection ++ st0.yellowSelection ≠ [])
    (hnodup : (st0.redSelection ++ st0.yellowSelection).Nodup)
    (hpresent : ∀ i ∈ st0.redSelection ++ st0.yellowSelection, (findTab h.world i).isSome)
    (hfresh : getWindow h.world h.nextId = none) :
    (mergeBtnClick st0 h uiLookup true true).alertMsg = none ∧
    (mergeBtnClick st0 h uiLookup true true).refreshed = true ∧
    (mergeBtnClick st0 h uiLookup true true).st.redSelection = [] ∧
    (mergeBtnClick st0 h uiLookup true true).st.yellowSelection = [] ∧
    (mergeBtnClick st0 h uiLookup true true).st.mergeMode = none ∧
    getWindow (mergeBtnClick st0 h uiLookup true true).host.world h.nextId =
      some ⟨h.nextId, (st0.redSelection ++ st0.yellowSelection).filterMap (findTab h.world)⟩ ∧
    ((st0.redSelection ++ st0.yellowSelection).filterMap (findTab h.world)).map
      (fun t => t.id) = st0.redSelection ++ st0.yellowSelection ∧
    (mergeBtnClick st0 h uiLookup true true).host.trace =
      h.trace ++ HostCmd.create (st0.redSelection ++ st0.yellowSelection).head? ::
        (if (st0.redSelection ++ st0.yellowSelection).drop 1 = [] then []
         else [HostCmd.move ((st0.redSelection ++ st0.yellowSelection).drop 1) h.nextId]) := by
  obtain ⟨h1, hrun, hwin, htrace, _⟩ :=
    createAndMoveAll_ok h (st0.redSelection ++ st0.yellowSelection) hne hnodup hpresent hfresh
  have hres : mergeBtnClick st0 h uiLookup true true =
      ⟨{ refreshUiWindowId st0 uiLookup with mergeMode := none, redSelection := [], yellowSelection := [] }, h1, none, true⟩ := by
    unfold mergeBtnClick
    rw [if_neg (by simp [hmode])]
    rw [show (refreshUiWindowId st0 uiLookup).mergeMode = some MergeMode.yellow from
      by simp [hmode]]
    show (match createAndMoveAll h ((refreshUiWindowId st0 uiLookup).redSelection ++
        (refreshUiWindowId st0 uiLookup).yellowSelection) true true with
      | Except.ok r =>
          (⟨{ refreshUiWindowId st0 uiLookup with mergeMode := none, redSelection := [], yellowSelection := [] }, r.2, none, true⟩ : ClickResult)
      | Except.error h1 =>
          ⟨{ refreshUiWindowId st0 uiLookup with mergeMode := none, redSelection := [], yellowSelection := [] }, h1, some "Merge failed", false⟩) = _
    rw [show (refreshUiWindowId st0 uiLookup).redSelection = st0.redSelection from by simp,
      show (refreshUiWindowId st0 uiLookup).yellowSelection = st0.yellowSelection from by simp,
      hrun]
  rw [hres]
  exact ⟨rfl, rfl, rfl, rfl, rfl, hwin,
    map_id_filterMap_findTab h.world (st0.redSelection ++ st0.yellowSelection) hpresent,
    htrace⟩

/-- Witness for C1: the spec scenario `W1=[1,2,3]`, `W2=[4,5]`,
Source=[1], Target=[4]; the new window (id 10) holds tabs 1 then 4. -/
theorem merge_stage3_executes_witness :
    getWindow (mergeBtnClick ⟨[], none, none, none, [], [1], [4], some MergeMode.yellow⟩
        ⟨[⟨1, [⟨1⟩, ⟨2⟩, ⟨3⟩]⟩, ⟨2, [⟨4⟩, ⟨5⟩]⟩], 10, none, []⟩ none true true).host.world 10 =
      some ⟨10, [⟨1⟩, ⟨4⟩]⟩ ∧
    (mergeBtnClick ⟨[], none, none, none, [], [1], [4], some MergeMode.yellow⟩
        ⟨[⟨1, [⟨1⟩, ⟨2⟩, ⟨3⟩]⟩, ⟨2, [⟨4⟩, ⟨5⟩]⟩], 10, none, []⟩ none true true).st.redSelection = [] ∧
    (mergeBtnClick ⟨[], none, none, none, [], [1], [4], some MergeMode.yellow⟩
        ⟨[⟨1, [⟨1⟩, ⟨2⟩, ⟨3⟩]⟩, ⟨2, [⟨4⟩, ⟨5⟩]⟩], 10, none, []⟩ none true true).refreshed = true := by
  have hmain := merge_stage3_executes
    ⟨[], none, none, none, [], [1], [4], some MergeMode.yellow⟩
    ⟨[⟨1, [⟨1⟩, ⟨2⟩, ⟨3⟩]⟩, ⟨2, [⟨4⟩, ⟨5⟩]⟩], 10, none, []⟩ none
    rfl (by decide) (by decide) (by decide) (by decide)
  refine ⟨?_, hmain.2.2.1, hmain.2.1⟩
  rw [hmain.2.2.2.2.2.1]
  decide

/-- C3: the Split action with an empty Current reports "No tabs selected"
and issues no host command (no window is created); otherwise the first id
of Current seeds a new window and every remaining id is moved into it
appended at the end in order (the new window holds exactly the tabs of
Current, in order); on success Current is cleared and a refresh is
triggered; on failure a failure notice is shown and Current is left
untouched. -/
theorem split_click_spec (st0 : UIState) (h : Host) (uiLookup : Option Nat) :
    (st0.blueSelection = [] → ∀ cOk mOk,
      splitBtnClick st0 h uiLookup cOk mOk =
        ⟨refreshUiWindowId st0 uiLookup, h, some "No tabs selected", false⟩) ∧
    (st0.blueSelection ≠ [] → st0.blueSelection.Nodup →
      (∀ i ∈ st0.blueSelection, (findTab h.world i).isSome) →
      getWindow h.world h.nextId = none →
      (splitBtnClick st0 h uiLookup true true).alertMsg = none ∧
      (splitBtnClick st0 h uiLookup true true).refreshed = true ∧
      (splitBtnClick st0 h uiLookup true true).st.blueSelection = [] ∧
      getWindow (splitBtnClick st0 h uiLookup true true).host.world h.nextId =
        some ⟨h.nextId, st0.blueSelection.filterMap (findTab h.world)⟩ ∧
      (st0.blueSelection.filterMap (findTab h.world)).map (fun t => t.id) =
        st0.blueSelection ∧
      (splitBtnClick st0 h uiLookup true true).host.trace =
        h.trace ++ HostCmd.create st0.blueSelection.head? ::
          (if st0.blueSelection.drop 1 = [] then []
           else [HostCmd.move (st0.blueSelection.drop 1) h.nextId])) ∧
    (st0.blueSelection ≠ [] → ∀ mOk,
      (splitBtnClick st0 h uiLookup false mOk).alertMsg = some "Split failed" ∧
      (splitBtnClick st0 h uiLookup false mOk).st.blueSelection = st0.blueSelection ∧
      (splitBtnClick st0 h uiLookup false mOk).refreshed = false) := by
  refine ⟨?_, ?_, ?_⟩
  · intro hblue cOk mOk
    unfold splitBtnClick
    rw [if_pos (by simp [hblue])]
  · intro hne hnodup hpresent hfresh
    obtain ⟨h1, hrun, hwin, htrace, _⟩ :=
      createAndMoveAll_ok h st0.blueSelection hne hnodup hpresent hfresh
    have hres : splitBtnClick st0 h uiLookup true true =
        ⟨{ refreshUiWindowId st0 uiLookup with blueSelection := [] }, h1, none, true⟩ := by
      unfold splitBtnClick
      rw [if_neg (by simp [hne])]
      rw [show (refreshUiWindowId st0 uiLookup).blueSelection = st0.blueSelection from
        by simp, hrun]
    rw [hres]
    exact ⟨rfl, rfl, rfl, hwin,
      map_id_filterMap_findTab h.world st0.blueSelection hpresent, htrace⟩
  · intro hne mOk
    have hfail : createAndMoveAll h st0.blueSelection false mOk =
        Except.error { h with trace := h.trace ++ [HostCmd.create st0.blueSelection.head?] } := by
      unfold createAndMoveAll hCreateWindow
      rfl
    have hres : splitBtnClick st0 h uiLookup false mOk =
        ⟨refreshUiWindowId st0 uiLookup,
         { h with trace := h.trace ++ [HostCmd.create st0.blueSelection.head?] },
         some "Split failed", false⟩ := by
      unfold splitBtnClick
      rw [if_neg (by simp [hne])]
      rw [show (refreshUiWindowId st0 uiLookup).blueSelection = st0.blueSelection from
        by simp, hfail]
    rw [hres]
    exact ⟨rfl, by simp, rfl⟩

/-- Witness for C3: empty Current aborts with the notice and an untouched
host; Current=[2,3] splits into new window 100 holding tabs 2 then 3. -/
theorem split_click_spec_witness :
    splitBtnClick ⟨[], none, none, none, [], [], [], none⟩
        ⟨[⟨1, [⟨1⟩]⟩, ⟨2, [⟨2⟩, ⟨3⟩]⟩], 100, none, []⟩ none true true =
      ⟨⟨[], none, none, none, [], [], [], none⟩,
       ⟨[⟨1, [⟨1⟩]⟩, ⟨2, [⟨2⟩, ⟨3⟩]⟩], 100, none, []⟩, some "No tabs selected", false⟩ ∧
    getWindow (splitBtnClick ⟨[], none, none, none, [2, 3], [], [], none⟩
        ⟨[⟨1, [⟨1⟩]⟩, ⟨2, [⟨2⟩, ⟨3⟩]⟩], 100, none, []⟩ none true true).host.world 100 =
      some ⟨100, [⟨2⟩, ⟨3⟩]⟩ ∧
    (splitBtnClick ⟨[], none, none, none, [2, 3], [], [], none⟩
        ⟨[⟨1, [⟨1⟩]⟩, ⟨2, [⟨2⟩, ⟨3⟩]⟩], 100, none, []⟩ none true true).st.blueSelection = [] ∧
    (splitBtnClick ⟨[], none, none, none, [2, 3], [], [], none⟩
        ⟨[⟨1, [⟨1⟩]⟩, ⟨2, [⟨2⟩, ⟨3⟩]⟩], 100, none, []⟩ none false true).st.blueSelection =
      [2, 3] := by
  have hempty := (split_click_spec ⟨[], none, none, none, [], [], [], none⟩
    ⟨[⟨1, [⟨1⟩]⟩, ⟨2, [⟨2⟩, ⟨3⟩]⟩], 100, none, []⟩ none).1 rfl true true
  have hok := (split_click_spec ⟨[], none, none, none, [2, 3], [], [], none⟩
    ⟨[⟨1, [⟨1⟩]⟩, ⟨2, [⟨2⟩, ⟨3⟩]⟩], 100, none, []⟩ none).2.1
    (by decide) (by decide) (by decide) (by decide)
  have hfail := (split_click_spec ⟨[], none, none, none, [2, 3], [], [], none⟩
    ⟨[⟨1, [⟨1⟩]⟩, ⟨2, [⟨2⟩, ⟨3⟩]⟩], 100, none, []⟩ none).2.2 (by decide) true
  refine ⟨hempty, ?_, hok.2.2.1, hfail.2.1⟩
  rw [hok.2.2.2.1]
  decide

theorem contains_iff_mem_ids (l : List Nat) (a : Nat) : l.contains a = true ↔ a ∈ l := by
  simp [List.contains, List.elem_iff]

theorem mem_jsSetDedupAux (l : List Nat) : ∀ (seen : List Nat) (a : Nat),
    (a ∈ jsSetDedupAux seen l ↔ a ∈ l ∧ a ∉ seen) := by
  induction l with
  | nil =>
    intro seen a
    simp [jsSetDedupAux]
  | cons x xs ih =>
    intro seen a
    by_cases hx : seen.contains x = true
    · rw [jsSetDedupAux, if_pos hx, ih]
      have hxs : x ∈ seen := (contains_iff_mem_ids _ _).mp hx
      constructor
      · rintro ⟨h1, h2⟩
        exact ⟨List.mem_cons_of_mem _ h1, h2⟩
      · rintro ⟨h1, h2⟩
        rcases List.mem_cons.mp h1 with h | h
        · exact absurd (h ▸ hxs) h2
        · exact ⟨h, h2⟩
    · rw [jsSetDedupAux, if_neg hx, List.mem_cons, ih]
      have hxs : x ∉ seen := fun hh => hx ((contains_iff_mem_ids _ _).mpr hh)
      constructor
      · rintro (rfl | ⟨h1, h2⟩)
        · exact ⟨List.mem_cons_self _ _, hxs⟩
        · refine ⟨List.mem_cons_of_mem _ h1, fun hh => h2 (List.mem_cons_of_mem _ hh)⟩
      · rintro ⟨h1, h2⟩
        by_cases hax : a = x
        · exact Or.inl hax
        · rcases List.mem_cons.mp h1 with h | h
          · exact absurd h hax
          · right
            refine ⟨h, fun hh => ?_⟩
            rcases List.mem_cons.mp hh with h3 | h3
            · exact hax h3
            · exact h2 h3

theorem mem_jsSetDedup (l : List Nat) (a : Nat) : a ∈ jsSetDedup l ↔ a ∈ l := by
  unfold jsSetDedup
  rw [mem_jsSetDedupAux]
  simp

theorem nodup_jsSetDedupAux (l : List Nat) : ∀ seen : List Nat,
    (jsSetDedupAux seen l).Nodup := by
  induction l with
  | nil =>
    intro seen
    simp [jsSetDedupAux]
  | cons x xs ih =>
    intro seen
    by_cases hx : seen.contains x = true
    · rw [jsSetDedupAux, if_pos hx]
      exact ih seen
    · rw [jsSetDedupAux, if_neg hx]
      refine List.nodup_cons.mpr ⟨fun hh => ?_, ih (x :: seen)⟩
      exact ((mem_jsSetDedupAux xs (x :: seen) x).mp hh).2 (List.mem_cons_self _ _)

theorem nodup_jsSetDedup (l : List Nat) : (jsSetDedup l).Nodup :=
  nodup_jsSetDedupAux l []

/-- C7 counterexample: on drag release with metaKey (Cmd, a
toggle-modifier per the claim) held and shiftKey not held, the drag
result is not ignored: Current changes from [] to the intersecting set. -/
theorem drag_meta_not_ignored_cex :
    endDragSelection [] [5] false true false = [5] ∧ ([5] : List Nat) ≠ [] := by
  decide

/-- C7 (amended): on drag release with a non-empty intersecting set:
with Shift or Cmd held, Current becomes the duplicate-free union (in
first-occurrence order) of its prior contents and the intersecting ids;
with none of Shift/Cmd/Ctrl held, Current is replaced outright; with
Ctrl alone held, the drag result is ignored and Current is unchanged.
(Cmd acts as a union-modifier here, not as the ignore-modifier.) -/
theorem endDrag_selection_update (blue sel : List Nat) (shiftKey metaKey ctrlKey : Bool)
    (hne : sel ≠ []) :
    ((shiftKey = true ∨ metaKey = true) →
      ((endDragSelection blue sel shiftKey metaKey ctrlKey).Nodup ∧
       ∀ a, a ∈ endDragSelection blue sel shiftKey metaKey ctrlKey ↔ a ∈ blue ∨ a ∈ sel)) ∧
    (shiftKey = false → metaKey = false → ctrlKey = false →
      endDragSelection blue sel shiftKey metaKey ctrlKey = sel) ∧
    (shiftKey = false → metaKey = false → ctrlKey = true →
      endDragSelection blue sel shiftKey metaKey ctrlKey = blue) := by
  refine ⟨?_, ?_, ?_⟩
  · intro hor
    have hb : (shiftKey || metaKey) = true := by
      rcases hor with h | h <;> simp [h]
    have hres : endDragSelection blue sel shiftKey metaKey ctrlKey =
        jsSetDedup (blue ++ sel) := by
      unfold endDragSelection
      rw [if_pos hne, if_pos hb]
    rw [hres]
    refine ⟨nodup_jsSetDedup _, fun a => ?_⟩
    rw [mem_jsSetDedup, List.mem_append]
  · intro h1 h2 h3
    subst h1; subst h2; subst h3
    unfold endDragSelection
    rw [if_pos hne]
    rfl
  · intro h1 h2 h3
    subst h1; subst h2; subst h3
    unfold endDragSelection
    rw [if_pos hne]
    rfl

/-- Witness for the amended C7 at concrete selections. -/
theorem endDrag_selection_update_witness :
    endDragSelection [3] [5, 9] false false false = [5, 9] ∧
    endDragSelection [3] [5, 9] false false true = [3] ∧
    (endDragSelection [3] [5, 3] true false false).Nodup ∧
    ((5 : Nat) ∈ endDragSelection [3] [5, 3] true false false ↔
      (5 : Nat) ∈ ([3] : List Nat) ∨ (5 : Nat) ∈ ([5, 3] : List Nat)) := by
  have h1 := endDrag_selection_update [3] [5, 9] false false false (by decide)
  have h2 := endDrag_selection_update [3] [5, 9] false false true (by decide)
  have h3 := endDrag_selection_update [3] [5, 3] true false false (by decide)
  exact ⟨h1.2.1 rfl rfl rfl, h2.2.2 rfl rfl rfl, (h3.1 (Or.inl rfl)).1,
    (h3.1 (Or.inl rfl)).2 5⟩

theorem mem_foldl_pushNew (l : List Nat) : ∀ (blue : List Nat) (a : Nat),
    (a ∈ l.foldl (fun acc id => if acc.contains id then acc else acc ++ [id]) blue ↔
      a ∈ blue ∨ a ∈ l) := by
  induction l with
  | nil =>
    intro blue a
    simp
  | cons x xs ih =>
    intro blue a
    rw [List.foldl_cons]
    by_cases hx : blue.contains x = true
    · rw [if_pos hx, ih]
      have hxb : x ∈ blue := (contains_iff_mem_ids _ _).mp hx
      constructor
      · rintro (h | h)
        · exact Or.inl h
        · exact Or.inr (List.mem_cons_of_mem _ h)
      · rintro (h | h)
        · exact Or.inl h
        · rcases List.mem_cons.mp h with h | h
          · exact Or.inl (h ▸ hxb)
          · exact Or.inr h
    · rw [if_neg hx, ih, List.mem_append, List.mem_singleton, List.mem_cons]
      tauto

/-- C8 counterexample: with a partial selection (window tabs [2, 3],
Current = [2]) two header toggle-clicks end with every tab of the window
deselected, so tab 2 does not return to its pre-click membership. -/
theorem toggleAll_twice_partial_cex :
    toggleAllTabsInWindow [⟨2, [⟨2⟩, ⟨3⟩]⟩] 2
        (toggleAllTabsInWindow [⟨2, [⟨2⟩, ⟨3⟩]⟩] 2 [2]) = [] ∧
    (2 : Nat) ∈ ([2] : List Nat) ∧ (2 : Nat) ∉ ([] : List Nat) := by
  decide

/-- C8 (amended): window-header toggle-click applied twice returns every
tab of the window to its pre-click Current-membership state whenever the
window was uniformly selected (all of its tabs in Current, or none of
them); for a partial selection the second application removes all of the
window's tabs instead. -/
theorem toggleAll_twice_uniform (wd : List CWindow) (wid : Nat) (blue : List Nat)
    (w : CWindow) (hw : wd.find? (fun x => x.id = wid) = some w)
    (huni : (∀ t ∈ w.tabs, t.id ∈ blue) ∨ (∀ t ∈ w.tabs, t.id ∉ blue)) :
    ∀ t ∈ w.tabs,
      (t.id ∈ toggleAllTabsInWindow wd wid (toggleAllTabsInWindow wd wid blue) ↔
        t.id ∈ blue) := by
  intro t ht
  have htid : t.id ∈ w.tabs.map (fun t => t.id) := List.mem_map_of_mem _ ht
  rcases huni with hall | hnone
  · have hcheck1 : ((w.tabs.map (fun t => t.id)).all (fun id => blue.contains id)) = true := by
      rw [List.all_eq_true]
      intro i hi
      obtain ⟨t1, ht1, rfl⟩ := List.mem_map.mp hi
      exact (contains_iff_mem_ids _ _).mpr (hall t1 ht1)
    have hfirst : toggleAllTabsInWindow wd wid blue =
        blue.filter (fun id => decide (id ∉ w.tabs.map (fun t => t.id))) := by
      simp only [toggleAllTabsInWindow, hw]
      rw [hcheck1]
      rfl
    have ht_not : t.id ∉ blue.filter (fun id => decide (id ∉ w.tabs.map (fun t => t.id))) := by
      intro hmem
      have := (List.mem_filter.mp hmem).2
      simp only [decide_eq_true_eq] at this
      exact this htid
    have hcheck2 : ((w.tabs.map (fun t => t.id)).all (fun id =>
        (blue.filter (fun id => decide (id ∉ w.tabs.map (fun t => t.id)))).contains id)) =
          false := by
      rw [Bool.eq_false_iff]
      intro hforall
      rw [List.all_eq_true] at hforall
      exact ht_not ((contains_iff_mem_ids _ _).mp (hforall _ htid))
    have hsecond : toggleAllTabsInWindow wd wid
        (blue.filter (fun id => decide (id ∉ w.tabs.map (fun t => t.id)))) =
        (w.tabs.map (fun t => t.id)).foldl
          (fun acc id => if acc.contains id then acc else acc ++ [id])
          (blue.filter (fun id => decide (id ∉ w.tabs.map (fun t => t.id)))) := by
      simp only [toggleAllTabsInWindow, hw]
      rw [hcheck2]
      rfl
    rw [hfirst, hsecond, mem_foldl_pushNew]
    constructor
    · intro _
      exact hall t ht
    · intro _
      exact Or.inr htid
  · have hcheck1 : ((w.tabs.map (fun t => t.id)).all (fun id => blue.contains id)) = false := by
      rw [Bool.eq_false_iff]
      intro hforall
      rw [List.all_eq_true] at hforall
      exact hnone t ht ((contains_iff_mem_ids _ _).mp (hforall _ htid))
    have hfirst : toggleAllTabsInWindow wd wid blue =
        (w.tabs.map (fun t => t.id)).foldl
          (fun acc id => if acc.contains id then acc else acc ++ [id]) blue := by
      simp only [toggleAllTabsInWindow, hw]
      rw [hcheck1]
      rfl
    have hmem_first : ∀ i ∈ w.tabs.map (fun t => t.id),
        i ∈ (w.tabs.map (fun t => t.id)).foldl
          (fun acc id => if acc.contains id then acc else acc ++ [id]) blue :=
      fun i hi => (mem_foldl_pushNew _ _ _).mpr (Or.inr hi)
    have hcheck2 : ((w.tabs.map (fun t => t.id)).all (fun id =>
        ((w.tabs.map (fun t => t.id)).foldl
          (fun acc id => if acc.contains id then acc else acc ++ [id]) blue).contains id)) =
          true := by
      rw [List.all_eq_true]
      intro i hi
      exact (contains_iff_mem_ids _ _).mpr (hmem_first i hi)
    have hsecond : toggleAllTabsInWindow wd wid
        ((w.tabs.map (fun t => t.id)).foldl
          (fun acc id => if acc.contains id then acc else acc ++ [id]) blue) =
        ((w.tabs.map (fun t => t.id)).foldl
          (fun acc id => if acc.contains id then acc else acc ++ [id]) blue).filter
            (fun id => decide (id ∉ w.tabs.map (fun t => t.id))) := by
      simp only [toggleAllTabsInWindow, hw]
      rw [hcheck2]
      rfl
    rw [hfirst, hsecond]
    refine iff_of_false (fun hmem => ?_) (hnone t ht)
    have := (List.mem_filter.mp hmem).2
    simp only [decide_eq_true_eq] at this
    exact this htid

/-- Witness for the amended C8: a fully selected window returns to fully
selected membership after two toggle-clicks. -/
theorem toggleAll_twice_uniform_witness :
    ((4 : Nat) ∈ toggleAllTabsInWindow [⟨1, [⟨4⟩, ⟨5⟩]⟩] 1
        (toggleAllTabsInWindow [⟨1, [⟨4⟩, ⟨5⟩]⟩] 1 [4, 5]) ↔
      (4 : Nat) ∈ ([4, 5] : List Nat)) :=
  toggleAll_twice_uniform [⟨1, [⟨4⟩, ⟨5⟩]⟩] 1 [4, 5] ⟨1, [⟨4⟩, ⟨5⟩]⟩ (by decide)
    (Or.inl (by decide)) ⟨4⟩ (by decide)

/-- C10: window-header double-click appends the entire ordered tab-id
list of the window onto the end of Current without deduplication — an id
already present now occurs at least twice — and a subsequent stage-1
Merge copies Current verbatim (duplicates included) into Source. -/
theorem dblclick_appends_without_dedup (st : UIState) (wid : Nat) (w : CWindow)
    (hw : st.windowsData.find? (fun x => x.id = wid) = some w) :
    (dblclickWindowHeader st wid).blueSelection =
      st.blueSelection ++ w.tabs.map (fun t => t.id) ∧
    (∀ i, i ∈ st.blueSelection → i ∈ w.tabs.map (fun t => t.id) →
      2 ≤ (dblclickWindowHeader st wid).blueSelection.count i) ∧
    (∀ st1 : UIState, ∀ h : Host, ∀ uiLookup : Option Nat, ∀ cOk mOk : Bool,
      st1.mergeMode = none → st1.blueSelection ≠ [] →
      (mergeBtnClick st1 h uiLookup cOk mOk).st.redSelection = st1.blueSelection) := by
  have happend : (dblclickWindowHeader st wid).blueSelection =
      st.blueSelection ++ w.tabs.map (fun t => t.id) := by
    simp only [dblclickWindowHeader, selectAllTabsInWindow, hw]
  refine ⟨happend, ?_, ?_⟩
  · intro i hib hiw
    rw [happend, List.count_append]
    have h1 : 1 ≤ st.blueSelection.count i := List.one_le_count_iff.mpr hib
    have h2 : 1 ≤ (w.tabs.map (fun t => t.id)).count i := List.one_le_count_iff.mpr hiw
    omega
  · intro st1 h uiLookup cOk mOk hmode hne
    unfold mergeBtnClick
    rw [if_neg (by simp [hne])]
    rw [show (refreshUiWindowId st1 uiLookup).mergeMode = (none : Option MergeMode) from
      by simp [hmode]]
    simp

/-- Witness for C10: double-click on window 1 with Current=[7] yields
[7, 7] (tab 7 now twice), and stage-1 Merge copies such a Current into
Source verbatim. -/
theorem dblclick_appends_without_dedup_witness :
    (dblclickWindowHeader ⟨[⟨1, [⟨7⟩]⟩], none, none, none, [7], [], [], none⟩ 1).blueSelection =
      [7, 7] ∧
    2 ≤ (dblclickWindowHeader
      ⟨[⟨1, [⟨7⟩]⟩], none, none, none, [7], [], [], none⟩ 1).blueSelection.count 7 ∧
    (mergeBtnClick ⟨[], none, none, none, [7, 7], [], [], none⟩ ⟨[], 0, none, []⟩
      none true true).st.redSelection = [7, 7] := by
  have hmain := dblclick_appends_without_dedup
    ⟨[⟨1, [⟨7⟩]⟩], none, none, none, [7], [], [], none⟩ 1 ⟨1, [⟨7⟩]⟩ (by decide)
  refine ⟨?_, hmain.2.1 7 (by decide) (by decide), ?_⟩
  · rw [hmain.1]
    rfl
  · exact hmain.2.2 ⟨[], none, none, none, [7, 7], [], [], none⟩ ⟨[], 0, none, []⟩
      none true true rfl (by decide)

theorem getWindow_id {ws : List CWindow} {wid : Nat} {w : CWindow}
    (h : getWindow ws wid = some w) : w.id = wid := by
  unfold getWindow at h
  have := List.find?_some h
  simpa using this

/-- A window disjoint from the moved ids (in particular an empty one) is
untouched by a bulk move into another window. -/
theorem getWindow_disjoint_preserved_move (ws : List CWindow) (ids : List Nat)
    (dest wid : Nat) (w : CWindow) (hw : getWindow ws wid = some w) (hne : wid ≠ dest)
    (hdisj : ∀ t ∈ w.tabs, t.id ∉ ids) :
    getWindow (moveWorld ws ids dest) wid = some w := by
  have hfil : w.tabs.filter (fun t => decide (t.id ∉ ids)) = w.tabs :=
    List.filter_eq_self.mpr (fun t ht => by simpa using hdisj t ht)
  rw [getWindow_moveWorld, hw, Option.map_some',
    if_neg (by rw [getWindow_id hw]; exact hne), hfil]

/-- The bulk-move destination gains exactly the moved tabs at its end. -/
theorem getWindow_target_move (ws : List CWindow) (ids : List Nat) (tgt : Nat)
    (T : List CTab) (hT : getWindow ws tgt = some ⟨tgt, T⟩)
    (hdisj : ∀ t ∈ T, t.id ∉ ids) :
    getWindow (moveWorld ws ids tgt) tgt =
      some ⟨tgt, T ++ ids.filterMap (findTab ws)⟩ := by
  have hfil : T.filter (fun t => decide (t.id ∉ ids)) = T :=
    List.filter_eq_self.mpr (fun t ht => by simpa using hdisj t ht)
  rw [getWindow_moveWorld, hT]
  simp only [Option.map_some', Option.some.injEq]
  rw [if_pos trivial, hfil]

/-- Moving all of a window's tabs away empties that window. -/
theorem getWindow_source_move (ws : List CWindow) (w : CWindow) (tgt : Nat)
    (hw : getWindow ws w.id = some w) (hne : w.id ≠ tgt) :
    getWindow (moveWorld ws (w.tabs.map (fun t => t.id)) tgt) w.id =
      some { w with tabs := [] } := by
  have hfil : w.tabs.filter (fun t => decide (t.id ∉ w.tabs.map (fun t => t.id))) = [] := by
    rw [List.filter_eq_nil_iff]
    intro t ht
    simp only [decide_eq_true_eq, Decidable.not_not]
    exact List.mem_map_of_mem _ ht
  rw [getWindow_moveWorld, hw, Option.map_some', if_neg hne, hfil]

/-- `mergeFromWindow` with source = target is a no-op. -/
theorem mergeFromWindow_skip_target (h : Host) (tgt : Nat) (mOk fOk : Bool) :
    mergeFromWindow h tgt tgt mOk fOk = Except.ok h := by
  unfold mergeFromWindow
  rw [if_pos rfl]

/-- `mergeFromWindow` on an empty source window issues no command. -/
theorem mergeFromWindow_skip_empty (h : Host) (tgt sid : Nat) (src : CWindow)
    (mOk fOk : Bool) (hne : sid ≠ tgt) (hsrc : getWindow h.world sid = some src)
    (hempty : src.tabs = []) :
    mergeFromWindow h tgt sid mOk fOk = Except.ok h := by
  simp only [mergeFromWindow, hsrc]
  rw [if_neg hne, hempty]
  rfl

/-- `mergeFromWindow` on a live non-empty source with succeeding host
calls: one bulk move into the target, then a refocus of the target. -/
theorem mergeFromWindow_step (h : Host) (tgt : Nat) (w : CWindow)
    (hne : w.id ≠ tgt) (hsrc : getWindow h.world w.id = some w)
    (htabs : w.tabs ≠ [])
    (hfind : ∀ t ∈ w.tabs, findTab h.world t.id = some t ∧ t.id ≠ 0)
    (htgt : (getWindow h.world tgt).isSome = true) :
    mergeFromWindow h tgt w.id true true = Except.ok
      { world := moveWorld h.world (w.tabs.map (fun t => t.id)) tgt,
        nextId := h.nextId, focused := some tgt,
        trace := (h.trace ++ [HostCmd.move (w.tabs.map (fun t => t.id)) tgt]) ++
          [HostCmd.focus tgt] } := by
  have hfil : (w.tabs.map (fun t => t.id)).filter (fun i => decide (i ≠ 0)) =
      w.tabs.map (fun t => t.id) := by
    rw [List.filter_eq_self]
    intro a ha
    obtain ⟨t, ht, rfl⟩ := List.mem_map.mp ha
    simpa using (hfind t ht).2
  have hguard : ((w.tabs.map (fun t => t.id)).all (fun i => (findTab h.world i).isSome) &&
      (getWindow h.world tgt).isSome) = true := by
    rw [Bool.and_eq_true]
    refine ⟨?_, htgt⟩
    rw [List.all_eq_true]
    intro i hi
    obtain ⟨t, ht, rfl⟩ := List.mem_map.mp hi
    rw [(hfind t ht).1]
    rfl
  have hmove := hMoveTabs_ok h (w.tabs.map (fun t => t.id)) tgt hguard
  have hfocus_pre : (getWindow (moveWorld h.world (w.tabs.map (fun t => t.id)) tgt)
      tgt).isSome = true := by
    rw [getWindow_moveWorld]
    obtain ⟨tw, htw⟩ := Option.isSome_iff_exists.mp htgt
    rw [htw]
    rfl
  have hfocus := hFocusWindow_ok
    { world := moveWorld h.world (w.tabs.map (fun t => t.id)) tgt, nextId := h.nextId,
      focused := h.focused,
      trace := h.trace ++ [HostCmd.move (w.tabs.map (fun t => t.id)) tgt] } tgt hfocus_pre
  simp only [mergeFromWindow, hsrc]
  rw [if_neg hne, hfil, if_neg (by simpa using htabs), hmove, Except_bind_ok, hfocus]

/-- `mergeFromWindow` when the bulk move is rejected: the move command is
issued (and recorded) but the world is untouched and the error
propagates. -/
theorem mergeFromWindow_moveFail (h : Host) (tgt : Nat) (w : CWindow) (fOk : Bool)
    (hne : w.id ≠ tgt) (hsrc : getWindow h.world w.id = some w)
    (htabs : w.tabs ≠ [])
    (hids0 : ∀ t ∈ w.tabs, t.id ≠ 0) :
    mergeFromWindow h tgt w.id false fOk = Except.error
      { h with trace := h.trace ++ [HostCmd.move (w.tabs.map (fun t => t.id)) tgt] } := by
  have hfil : (w.tabs.map (fun t => t.id)).filter (fun i => decide (i ≠ 0)) =
      w.tabs.map (fun t => t.id) := by
    rw [List.filter_eq_self]
    intro a ha
    obtain ⟨t, ht, rfl⟩ := List.mem_map.mp ha
    simpa using hids0 t ht
  simp only [mergeFromWindow, hsrc]
  rw [if_neg hne, hfil, if_neg (by simpa using htabs), hMoveTabs_fail]
  rfl

theorem nonTargetWins_cons_ne (tgt : Nat) (w : CWindow) (rest : List CWindow)
    (h : w.id ≠ tgt) : nonTargetWins tgt (w :: rest) = w :: nonTargetWins tgt rest := by
  simp [nonTargetWins, List.filter_cons, h]

theorem nonTargetWins_cons_eq (tgt : Nat) (w : CWindow) (rest : List CWindow)
    (h : w.id = tgt) : nonTargetWins tgt (w :: rest) = nonTargetWins tgt rest := by
  simp [nonTargetWins, List.filter_cons, h]

theorem mergedSources_cons_eq (tgt : Nat) (w : CWindow) (rest : List CWindow)
    (h : w.id = tgt) : mergedSources tgt (w :: rest) = mergedSources tgt rest := by
  simp [mergedSources, nonTargetWins_cons_eq tgt w rest h]

theorem mergedSources_cons_empty (tgt : Nat) (w : CWindow) (rest : List CWindow)
    (h : w.id ≠ tgt) (he : w.tabs = []) :
    mergedSources tgt (w :: rest) = mergedSources tgt rest := by
  simp [mergedSources, nonTargetWins_cons_ne tgt w rest h, List.filter_cons, he]

theorem mergedSources_cons_live (tgt : Nat) (w : CWindow) (rest : List CWindow)
    (h : w.id ≠ tgt) (he : w.tabs ≠ []) :
    mergedSources tgt (w :: rest) = w :: mergedSources tgt rest := by
  simp [mergedSources, nonTargetWins_cons_ne tgt w rest h, List.filter_cons, he]

theorem mergeAllTrace_cons_eq (tgt : Nat) (w : CWindow) (rest : List CWindow)
    (h : w.id = tgt) : mergeAllTrace tgt (w :: rest) = mergeAllTrace tgt rest := by
  simp [mergeAllTrace, mergedSources_cons_eq tgt w rest h]

theorem mergeAllTrace_cons_empty (tgt : Nat) (w : CWindow) (rest : List CWindow)
    (h : w.id ≠ tgt) (he : w.tabs = []) :
    mergeAllTrace tgt (w :: rest) = mergeAllTrace tgt rest := by
  simp [mergeAllTrace, mergedSources_cons_empty tgt w rest h he]

theorem mergeAllTrace_cons_live (tgt : Nat) (w : CWindow) (rest : List CWindow)
    (h : w.id ≠ tgt) (he : w.tabs ≠ []) :
    mergeAllTrace tgt (w :: rest) =
      HostCmd.move (w.tabs.map (fun t => t.id)) tgt :: HostCmd.focus tgt ::
        mergeAllTrace tgt rest := by
  simp [mergeAllTrace, mergedSources_cons_live tgt w rest h he]

/-- Invariant-carrying specification of the merge-all loop on a fully
successful prefix: the loop succeeds, issues exactly the expected trace,
empties every processed non-target window, preserves empty windows,
focuses the target iff any real merge happened, and re-establishes the
coherence invariant for any windows still to be processed. -/
theorem mergeAllLoop_ok_inv (tgt : Nat) (ok : Nat → Bool × Bool) :
    ∀ (wins future : List CWindow) (h : Host) (T : List CTab),
      LoopInv h tgt T (wins ++ future) →
      (∀ w ∈ wins, ok w.id = (true, true)) →
      ∃ h1, mergeAllLoop tgt wins ok h = Except.ok h1 ∧
        h1.trace = h.trace ++ mergeAllTrace tgt wins ∧
        h1.nextId = h.nextId ∧
        h1.focused = (if mergedSources tgt wins = [] then h.focused else some tgt) ∧
        (∀ w ∈ wins, w.id ≠ tgt → getWindow h1.world w.id = some { w with tabs := [] }) ∧
        (∀ wid w2, wid ≠ tgt → getWindow h.world wid = some w2 → w2.tabs = [] →
          getWindow h1.world wid = some w2) ∧
        LoopInv h1 tgt (T ++ (nonTargetWins tgt wins).flatMap (fun w => w.tabs)) future := by
  intro wins
  induction wins with
  | nil =>
    intro future h T hinv hok
    refine ⟨h, rfl, by simp [mergeAllTrace, mergedSources, nonTargetWins], rfl,
      by simp [mergedSources, nonTargetWins], by simp, fun wid w2 _ hw _ => hw, ?_⟩
    simpa [nonTargetWins] using hinv
  | cons w rest ih =>
    intro future h T hinv hok
    obtain ⟨hT, hpend, hnods, hwids⟩ := hinv
    have hwids_tail : ((rest ++ future).map (fun w => w.id)).Nodup := by
      have hx : (((w :: rest) ++ future).map (fun w => w.id)).Nodup := hwids
      rw [List.cons_append, List.map_cons] at hx
      exact (List.nodup_cons.mp hx).2
    by_cases hwt : w.id = tgt
    · -- skipped by identity
      have hnt : nonTargetWins tgt ((w :: rest) ++ future) =
          nonTargetWins tgt (rest ++ future) := by
        rw [List.cons_append]
        exact nonTargetWins_cons_eq tgt w _ hwt
      have hinv2 : LoopInv h tgt T (rest ++ future) :=
        ⟨hT, fun w2 hw2 => hpend w2 (by rw [List.cons_append]; exact List.mem_cons_of_mem _ hw2),
          by rw [← hnt]; exact hnods, hwids_tail⟩
      obtain ⟨h1, e1, e2, e3, e4, e5, e6, e7⟩ := ih future h T hinv2
        (fun w2 hw2 => hok w2 (List.mem_cons_of_mem _ hw2))
      refine ⟨h1, ?_, ?_, e3, ?_, ?_, e6, ?_⟩
      · unfold mergeAllLoop
        rw [if_pos hwt]
        exact e1
      · rw [e2, mergeAllTrace_cons_eq tgt w rest hwt]
      · rw [e4, mergedSources_cons_eq tgt w rest hwt]
      · intro w2 hw2 hne2
        rcases List.mem_cons.mp hw2 with rfl | hw2
        · exact absurd hwt hne2
        · exact e5 w2 hw2 hne2
      · rw [nonTargetWins_cons_eq tgt w rest hwt]
        exact e7
    · obtain ⟨hw_in, hw_tabs⟩ :=
        hpend w (by rw [List.cons_append]; exact List.mem_cons_self _ _) hwt
      have hnt : nonTargetWins tgt ((w :: rest) ++ future) =
          w :: nonTargetWins tgt (rest ++ future) := by
        rw [List.cons_append]
        exact nonTargetWins_cons_ne tgt w _ hwt
      by_cases hwe : w.tabs = []
      · -- empty source window: no host command at all
        have hstep : mergeFromWindow h tgt w.id (ok w.id).1 (ok w.id).2 = Except.ok h :=
          mergeFromWindow_skip_empty h tgt w.id w _ _ hwt hw_in hwe
        have hinv2 : LoopInv h tgt T (rest ++ future) := by
          refine ⟨hT,
            fun w2 hw2 => hpend w2 (by rw [List.cons_append]; exact List.mem_cons_of_mem _ hw2),
            ?_, hwids_tail⟩
          have hsame : (nonTargetWins tgt ((w :: rest) ++ future)).flatMap
              (fun w => w.tabs.map (fun t => t.id)) =
              (nonTargetWins tgt (rest ++ future)).flatMap
                (fun w => w.tabs.map (fun t => t.id)) := by
            rw [hnt, List.flatMap_cons, hwe]
            rfl
          rw [← hsame]
          exact hnods
        obtain ⟨h1, e1, e2, e3, e4, e5, e6, e7⟩ := ih future h T hinv2
          (fun w2 hw2 => hok w2 (List.mem_cons_of_mem _ hw2))
        refine ⟨h1, ?_, ?_, e3, ?_, ?_, e6, ?_⟩
        · unfold mergeAllLoop
          rw [if_neg hwt, hstep]
          exact e1
        · rw [e2, mergeAllTrace_cons_empty tgt w rest hwt hwe]
        · rw [e4, mergedSources_cons_empty tgt w rest hwt hwe]
        · intro w2 hw2 hne2
          rcases List.mem_cons.mp hw2 with rfl | hw2
          · have hwsame : ({ w2 with tabs := [] } : CWindow) = w2 := by
              rw [← hwe]
            rw [hwsame]
            exact e6 w2.id w2 hne2 hw_in hwe
          · exact e5 w2 hw2 hne2
        · rw [nonTargetWins_cons_ne tgt w rest hwt, List.flatMap_cons, hwe]
          simpa using e7
      · -- live source window: one bulk move plus one focus
        have hids0 : ∀ t ∈ w.tabs, t.id ≠ 0 := fun t ht => (hw_tabs t ht).2
        have hfindw : ∀ t ∈ w.tabs, findTab h.world t.id = some t :=
          fun t ht => (hw_tabs t ht).1
        have htgt_some : (getWindow h.world tgt).isSome = true := by
          rw [hT]
          rfl
        have hstep := mergeFromWindow_step h tgt w hwt hw_in hwe hw_tabs htgt_some
        have hnods' : (T.map (fun t => t.id) ++
            (w.tabs.map (fun t => t.id) ++
              (nonTargetWins tgt (rest ++ future)).flatMap
                (fun w => w.tabs.map (fun t => t.id)))).Nodup := by
          have hx := hnods
          rw [hnt, List.flatMap_cons] at hx
          exact hx
        have hdisjT : ∀ t ∈ T, t.id ∉ w.tabs.map (fun t => t.id) := by
          intro t ht hmem
          exact (List.disjoint_of_nodup_append hnods') (List.mem_map_of_mem _ ht)
            (List.mem_append_left _ hmem)
        have hnods'' := (List.nodup_append.mp hnods').2.1
        have hdisjR : ∀ a, a ∈ (nonTargetWins tgt (rest ++ future)).flatMap
            (fun w => w.tabs.map (fun t => t.id)) → a ∉ w.tabs.map (fun t => t.id) := by
          intro a haR haI
          exact (List.disjoint_of_nodup_append hnods'') haI haR
        set h2 : Host := { world := moveWorld h.world (w.tabs.map (fun t => t.id)) tgt, nextId := h.nextId, focused := some tgt, trace := (h.trace ++ [HostCmd.move (w.tabs.map (fun t => t.id)) tgt]) ++ [HostCmd.focus tgt] } with hh2
        have hmoved : (w.tabs.map (fun t => t.id)).filterMap (findTab h.world) = w.tabs :=
          filterMap_findTab_of_present h.world w.tabs hfindw
        have hT2 : getWindow h2.world tgt = some ⟨tgt, T ++ w.tabs⟩ := by
          show getWindow (moveWorld h.world (w.tabs.map (fun t => t.id)) tgt) tgt = _
          rw [getWindow_target_move h.world _ tgt T hT hdisjT, hmoved]
        have hpend2 : ∀ w2 ∈ rest ++ future, w2.id ≠ tgt →
            getWindow h2.world w2.id = some w2 ∧
            ∀ t ∈ w2.tabs, findTab h2.world t.id = some t ∧ t.id ≠ 0 := by
          intro w2 hw2 hne2
          obtain ⟨hg2, hf2⟩ :=
            hpend w2 (by rw [List.cons_append]; exact List.mem_cons_of_mem _ hw2) hne2
          have hw2nt : w2 ∈ nonTargetWins tgt (rest ++ future) := by
            unfold nonTargetWins
            exact List.mem_filter.mpr ⟨hw2, by simpa using hne2⟩
          have hdisj2 : ∀ t ∈ w2.tabs, t.id ∉ w.tabs.map (fun t => t.id) := by
            intro t ht
            exact hdisjR t.id (List.mem_flatMap.mpr ⟨w2, hw2nt, List.mem_map_of_mem _ ht⟩)
          constructor
          · show getWindow (moveWorld h.world (w.tabs.map (fun t => t.id)) tgt) w2.id = some w2
            exact getWindow_disjoint_preserved_move h.world _ tgt w2.id w2 hg2 hne2 hdisj2
          · intro t ht
            refine ⟨?_, (hf2 t ht).2⟩
            show findTab (moveWorld h.world (w.tabs.map (fun t => t.id)) tgt) t.id = some t
            rw [findTab_moveWorld h.world _ tgt t.id (hdisj2 t ht)]
            exact (hf2 t ht).1
        have hinv2 : LoopInv h2 tgt (T ++ w.tabs) (rest ++ future) := by
          refine ⟨hT2, hpend2, ?_, hwids_tail⟩
          rw [List.map_append, List.append_assoc]
          exact hnods'
        obtain ⟨h3, e1, e2, e3, e4, e5, e6, e7⟩ := ih future h2 (T ++ w.tabs) hinv2
          (fun w2 hw2 => hok w2 (List.mem_cons_of_mem _ hw2))
        have hflags := hok w (List.mem_cons_self _ _)
        have hflag1 : (ok w.id).1 = true := by rw [hflags]
        have hflag2 : (ok w.id).2 = true := by rw [hflags]
        refine ⟨h3, ?_, ?_, ?_, ?_, ?_, ?_, ?_⟩
        · unfold mergeAllLoop
          rw [if_neg hwt, hflag1, hflag2, hstep]
          exact e1
        · rw [e2, mergeAllTrace_cons_live tgt w rest hwt hwe, hh2]
          simp [List.append_assoc]
        · simp [e3, hh2]
        · rw [e4, mergedSources_cons_live tgt w rest hwt hwe,
            if_neg (List.cons_ne_nil w (mergedSources tgt rest))]
          split <;> simp [hh2]
        · intro w2 hw2 hne2
          rcases List.mem_cons.mp hw2 with rfl | hw2
          · have hg2 : getWindow h2.world w2.id = some ({ w2 with tabs := [] } : CWindow) := by
              show getWindow (moveWorld h.world (w2.tabs.map (fun t => t.id)) tgt) w2.id = _
              exact getWindow_source_move h.world w2 tgt hw_in hne2
            exact e6 w2.id _ hne2 hg2 rfl
          · exact e5 w2 hw2 hne2
        · intro wid w2 hne2 hg hge
          have hg2 : getWindow h2.world wid = some w2 := by
            show getWindow (moveWorld h.world (w.tabs.map (fun t => t.id)) tgt) wid = some w2
            exact getWindow_disjoint_preserved_move h.world _ tgt wid w2 hg hne2
              (by rw [hge]; intro t ht; cases ht)
          exact e6 wid w2 hne2 hg2 hge
        · rw [nonTargetWins_cons_ne tgt w rest hwt, List.flatMap_cons, ← List.append_assoc]
          exact e7

/-- Unfolding equation of the merge-all loop on a non-empty mirror. -/
theorem mergeAllLoop_cons (tgt : Nat) (ok : Nat → Bool × Bool) (w : CWindow)
    (rest : List CWindow) (h : Host) :
    mergeAllLoop tgt (w :: rest) ok h =
      (if w.id = tgt then mergeAllLoop tgt rest ok h
       else match mergeFromWindow h tgt w.id (ok w.id).1 (ok w.id).2 with
         | Except.ok h1 => mergeAllLoop tgt rest ok h1
         | Except.error h1 => Except.error h1) := rfl

/-- The merge-all loop processes an appended mirror list sequentially,
propagating the first failure. -/
theorem mergeAllLoop_append (tgt : Nat) (ok : Nat → Bool × Bool)
    (pre rest : List CWindow) : ∀ h : Host,
    mergeAllLoop tgt (pre ++ rest) ok h =
      (match mergeAllLoop tgt pre ok h with
       | Except.ok h1 => mergeAllLoop tgt rest ok h1
       | Except.error h1 => Except.error h1) := by
  induction pre with
  | nil =>
    intro h
    rfl
  | cons w pre ih =>
    intro h
    rw [List.cons_append]
    by_cases hwt : w.id = tgt
    · rw [show mergeAllLoop tgt (w :: (pre ++ rest)) ok h =
          mergeAllLoop tgt (pre ++ rest) ok h from by
        rw [mergeAllLoop_cons, if_pos hwt]]
      rw [show mergeAllLoop tgt (w :: pre) ok h = mergeAllLoop tgt pre ok h from by
        rw [mergeAllLoop_cons, if_pos hwt]]
      exact ih h
    · cases hmf : mergeFromWindow h tgt w.id (ok w.id).1 (ok w.id).2 with
      | ok h1 =>
        rw [show mergeAllLoop tgt (w :: (pre ++ rest)) ok h =
            mergeAllLoop tgt (pre ++ rest) ok h1 from by
          rw [mergeAllLoop_cons, if_neg hwt, hmf]]
        rw [show mergeAllLoop tgt (w :: pre) ok h = mergeAllLoop tgt pre ok h1 from by
          rw [mergeAllLoop_cons, if_neg hwt, hmf]]
        exact ih h1
      | error h1 =>
        rw [show mergeAllLoop tgt (w :: (pre ++ rest)) ok h = Except.error h1 from by
          unfold mergeAllLoop
          rw [if_neg hwt, hmf]]
        rw [show mergeAllLoop tgt (w :: pre) ok h = Except.error h1 from by
          unfold mergeAllLoop
          rw [if_neg hwt, hmf]]

/-- Evaluating `mergeAllBtn.onclick` once the target id is known and
truthy: it runs the sequential loop over the mirror and reports
failure/success accordingly. -/
theorem mergeAllClick_run (st0 : UIState) (h : Host) (uiLookup : Option Nat)
    (ok : Nat → Bool × Bool) (tgt : Nat)
    (htgt : jsOrN (refreshUiWindowId st0 uiLookup).uiWindowId
      (jsOrN (refreshUiWindowId st0 uiLookup).activeWindowId
        (((refreshUiWindowId st0 uiLookup).windowsData.head?).map (fun w => w.id))) =
        some tgt)
    (htgt0 : tgt ≠ 0) :
    mergeAllBtnClick st0 h uiLookup ok =
      (match mergeAllLoop tgt st0.windowsData ok h with
       | Except.ok h1 => ⟨refreshUiWindowId st0 uiLookup, h1, none, true⟩
       | Except.error h1 =>
          ⟨refreshUiWindowId st0 uiLookup, h1, some "Merge All failed", false⟩) := by
  have hfalsy : jsFalsyN (some tgt) = false := by
    simp [jsFalsyN, htgt0]
  simp only [mergeAllBtnClick]
  rw [htgt, hfalsy]
  rw [show (refreshUiWindowId st0 uiLookup).windowsData = st0.windowsData from by simp]
  rfl

/-- C4: Merge-all picks as target `uiWindowId || activeWindowId ||
windowsData[0]?.id` (the window hosting the extension page, falling back
to the active window, then to the first window in mirror order); when
that chain yields a (truthy) target `tgt` and the mirror is coherent
with the host world, then: on an all-success run every other mirror
window in order has its tabs bulk-moved to the end of the target and the
target focused after each such merge, windows with zero tabs are skipped
entirely (no command issued for them), the final target tab list is its
original tabs followed by the other windows' tabs in mirror order, and
every merged window is left empty; a single failing move command aborts
the remaining loop with a failure notice while windows already merged
stay merged and the failing window keeps its tabs. -/
theorem mergeAll_spec (st0 : UIState) (h : Host) (uiLookup : Option Nat)
    (ok : Nat → Bool × Bool) (tgt : Nat) (T : List CTab)
    (htgt : jsOrN (refreshUiWindowId st0 uiLookup).uiWindowId
      (jsOrN (refreshUiWindowId st0 uiLookup).activeWindowId
        (((refreshUiWindowId st0 uiLookup).windowsData.head?).map (fun w => w.id))) =
        some tgt)
    (htgt0 : tgt ≠ 0)
    (hinv : LoopInv h tgt T st0.windowsData) :
    ((∀ w ∈ st0.windowsData, ok w.id = (true, true)) →
      (mergeAllBtnClick st0 h uiLookup ok).alertMsg = none ∧
      (mergeAllBtnClick st0 h uiLookup ok).refreshed = true ∧
      (mergeAllBtnClick st0 h uiLookup ok).host.trace =
        h.trace ++ mergeAllTrace tgt st0.windowsData ∧
      getWindow (mergeAllBtnClick st0 h uiLookup ok).host.world tgt =
        some ⟨tgt, T ++ (nonTargetWins tgt st0.windowsData).flatMap (fun w => w.tabs)⟩ ∧
      (∀ w ∈ st0.windowsData, w.id ≠ tgt →
        getWindow (mergeAllBtnClick st0 h uiLookup ok).host.world w.id =
          some { w with tabs := [] }) ∧
      (mergeAllBtnClick st0 h uiLookup ok).host.focused =
        (if mergedSources tgt st0.windowsData = [] then h.focused else some tgt) ∧
      (mergeAllBtnClick st0 h uiLookup ok).host.nextId = h.nextId) ∧
    (∀ pre wbad post, st0.windowsData = pre ++ wbad :: post →
      (∀ w ∈ pre, ok w.id = (true, true)) →
      (ok wbad.id).1 = false → wbad.id ≠ tgt → wbad.tabs ≠ [] →
      (mergeAllBtnClick st0 h uiLookup ok).alertMsg = some "Merge All failed" ∧
      (mergeAllBtnClick st0 h uiLookup ok).refreshed = false ∧
      (mergeAllBtnClick st0 h uiLookup ok).host.trace =
        (h.trace ++ mergeAllTrace tgt pre) ++
          [HostCmd.move (wbad.tabs.map (fun t => t.id)) tgt] ∧
      getWindow (mergeAllBtnClick st0 h uiLookup ok).host.world tgt =
        some ⟨tgt, T ++ (nonTargetWins tgt pre).flatMap (fun w => w.tabs)⟩ ∧
      (∀ w ∈ pre, w.id ≠ tgt →
        getWindow (mergeAllBtnClick st0 h uiLookup ok).host.world w.id =
          some { w with tabs := [] }) ∧
      getWindow (mergeAllBtnClick st0 h uiLookup ok).host.world wbad.id = some wbad) := by
  have hrun := mergeAllClick_run st0 h uiLookup ok tgt htgt htgt0
  constructor
  · intro hokall
    obtain ⟨h1, e1, e2, e3, e4, e5, _, e7⟩ :=
      mergeAllLoop_ok_inv tgt ok st0.windowsData [] h T (by simpa using hinv) hokall
    have hres : mergeAllBtnClick st0 h uiLookup ok =
        ⟨refreshUiWindowId st0 uiLookup, h1, none, true⟩ := by
      rw [hrun, e1]
    rw [hres]
    obtain ⟨hT1, _, _, _⟩ := e7
    exact ⟨rfl, rfl, e2, hT1, e5, e4, e3⟩
  · intro pre wbad post hsplit hokpre hbad1 hbadne hbadtabs
    obtain ⟨h1, e1, e2, e3, e4, e5, e6, e7⟩ :=
      mergeAllLoop_ok_inv tgt ok pre (wbad :: post) h T (by rw [← hsplit]; exact hinv) hokpre
    obtain ⟨hT1, hpend1, _, _⟩ := e7
    obtain ⟨hbad_in, hbad_tabs⟩ := hpend1 wbad (List.mem_cons_self _ _) hbadne
    have hids0 : ∀ t ∈ wbad.tabs, t.id ≠ 0 := fun t ht => (hbad_tabs t ht).2
    have hfail := mergeFromWindow_moveFail h1 tgt wbad (ok wbad.id).2 hbadne hbad_in
      hbadtabs hids0
    have hloopbad : mergeAllLoop tgt (wbad :: post) ok h1 = Except.error
        { h1 with trace := h1.trace ++
            [HostCmd.move (wbad.tabs.map (fun t => t.id)) tgt] } := by
      rw [mergeAllLoop_cons, if_neg hbadne, hbad1, hfail]
    have hloop : mergeAllLoop tgt st0.windowsData ok h = Except.error
        { h1 with trace := h1.trace ++
            [HostCmd.move (wbad.tabs.map (fun t => t.id)) tgt] } := by
      rw [hsplit, mergeAllLoop_append, e1]
      show mergeAllLoop tgt (wbad :: post) ok h1 = _
      rw [hloopbad]
    have hres : mergeAllBtnClick st0 h uiLookup ok =
        ⟨refreshUiWindowId st0 uiLookup,
         { h1 with trace := h1.trace ++
             [HostCmd.move (wbad.tabs.map (fun t => t.id)) tgt] },
         some "Merge All failed", false⟩ := by
      rw [hrun, hloop]
    rw [hres]
    refine ⟨rfl, rfl, ?_, hT1, e5, hbad_in⟩
    show h1.trace ++ [HostCmd.move (wbad.tabs.map (fun t => t.id)) tgt] = _
    rw [e2]

/-- Witness for C4: the spec scenario W1 (hosts UI) = [1], W2 = [2, 3],
W3 = [] — W3 is skipped, W2's tabs are appended to W1 in order, W1 ends
focused, final state W1 = [1, 2, 3], W2 = [], W3 = []. -/
theorem mergeAll_spec_witness :
    (mergeAllBtnClick
      ⟨[⟨1, [⟨1⟩]⟩, ⟨2, [⟨2⟩, ⟨3⟩]⟩, ⟨3, []⟩], some 1, none, some 1, [], [], [], none⟩
      ⟨[⟨1, [⟨1⟩]⟩, ⟨2, [⟨2⟩, ⟨3⟩]⟩, ⟨3, []⟩], 100, none, []⟩ none
      (fun _ => (true, true))).alertMsg = none ∧
    (mergeAllBtnClick
      ⟨[⟨1, [⟨1⟩]⟩, ⟨2, [⟨2⟩, ⟨3⟩]⟩, ⟨3, []⟩], some 1, none, some 1, [], [], [], none⟩
      ⟨[⟨1, [⟨1⟩]⟩, ⟨2, [⟨2⟩, ⟨3⟩]⟩, ⟨3, []⟩], 100, none, []⟩ none
      (fun _ => (true, true))).host.trace =
        [HostCmd.move [2, 3] 1, HostCmd.focus 1] ∧
    getWindow (mergeAllBtnClick
      ⟨[⟨1, [⟨1⟩]⟩, ⟨2, [⟨2⟩, ⟨3⟩]⟩, ⟨3, []⟩], some 1, none, some 1, [], [], [], none⟩
      ⟨[⟨1, [⟨1⟩]⟩, ⟨2, [⟨2⟩, ⟨3⟩]⟩, ⟨3, []⟩], 100, none, []⟩ none
      (fun _ => (true, true))).host.world 1 = some ⟨1, [⟨1⟩, ⟨2⟩, ⟨3⟩]⟩ ∧
    getWindow (mergeAllBtnClick
      ⟨[⟨1, [⟨1⟩]⟩, ⟨2, [⟨2⟩, ⟨3⟩]⟩, ⟨3, []⟩], some 1, none, some 1, [], [], [], none⟩
      ⟨[⟨1, [⟨1⟩]⟩, ⟨2, [⟨2⟩, ⟨3⟩]⟩, ⟨3, []⟩], 100, none, []⟩ none
      (fun _ => (true, true))).host.world 2 = some ⟨2, []⟩ ∧
    getWindow (mergeAllBtnClick
      ⟨[⟨1, [⟨1⟩]⟩, ⟨2, [⟨2⟩, ⟨3⟩]⟩, ⟨3, []⟩], some 1, none, some 1, [], [], [], none⟩
      ⟨[⟨1, [⟨1⟩]⟩, ⟨2, [⟨2⟩, ⟨3⟩]⟩, ⟨3, []⟩], 100, none, []⟩ none
      (fun _ => (true, true))).host.world 3 = some ⟨3, []⟩ ∧
    (mergeAllBtnClick
      ⟨[⟨1, [⟨1⟩]⟩, ⟨2, [⟨2⟩, ⟨3⟩]⟩, ⟨3, []⟩], some 1, none, some 1, [], [], [], none⟩
      ⟨[⟨1, [⟨1⟩]⟩, ⟨2, [⟨2⟩, ⟨3⟩]⟩, ⟨3, []⟩], 100, none, []⟩ none
      (fun _ => (true, true))).host.focused = some 1 := by
  have hmain := (mergeAll_spec
    ⟨[⟨1, [⟨1⟩]⟩, ⟨2, [⟨2⟩, ⟨3⟩]⟩, ⟨3, []⟩], some 1, none, some 1, [], [], [], none⟩
    ⟨[⟨1, [⟨1⟩]⟩, ⟨2, [⟨2⟩, ⟨3⟩]⟩, ⟨3, []⟩], 100, none, []⟩ none
    (fun _ => (true, true)) 1 [⟨1⟩] (by decide) (by decide)
    (by unfold LoopInv; decide)).1 (by decide)
  refine ⟨hmain.1, ?_, ?_, ?_, ?_, ?_⟩
  · rw [hmain.2.2.1]
    decide
  · rw [hmain.2.2.2.1]
    decide
  · have hw2 := hmain.2.2.2.2.1 ⟨2, [⟨2⟩, ⟨3⟩]⟩ (by decide) (by decide)
    rw [hw2]
  · have hw3 := hmain.2.2.2.2.1 ⟨3, []⟩ (by decide) (by decide)
    rw [hw3]
  · rw [hmain.2.2.2.2.2.1]
    decide
